import Mathlib

/-!
Verification of `azure_fakes.go` (cluster-autoscaler, Azure cloud provider).

A shallow embedding of `DeploymentsClientMock` and its five operations
(`Get`, `ExportTemplate`, `CreateOrUpdate`, `List`, `Delete`).

Modelling decisions, all taken from the Go source:

* `resources.DeploymentExtended` is a struct whose `Properties` field is a
  *pointer* to a `DeploymentPropertiesExtended`.  The map stores the struct by value,
  so copying a record copies the pointer, not the envelope.  The envelopes therefore
  live in an explicit heap (`World.heap`), addressed by natural numbers; `&T{}`
  allocates at the end of the heap.
* A Go map may be `nil`: reading, ranging over and deleting from a nil map are
  harmless, assigning into it panics.  `FakeStore` is an `Option` of an association
  list with pairwise distinct keys.  The iteration order of a Go map is unspecified;
  the model iterates in the order of the association list and the statements about
  `List` are up to permutation.
* A Go `error` is `Option String` (`none` is `nil`, `some msg` is `fmt.Errorf msg`).
* A run-time panic is an outcome of its own, carrying the state at the point of the
  panic (what a recovering caller would observe).
* `m.mutex.Lock()` / `defer m.mutex.Unlock()` bracket every operation; every
  operation is therefore one atomic step on the state, which is how it is modelled.
-/

namespace AzureFakes

/-- An opaque structured document, the dynamic content of a Go `interface{}` field
(`Template`, `Parameters`, `Outputs`); `nil` is the zero value. -/
inductive Document where
  | nil
  | text (s : String)
  | object (fields : List (String × String))
  deriving DecidableEq, Repr

/-- Heap address of a `DeploymentPropertiesExtended` value. -/
abbrev Addr := Nat

/-- The type `resources.DeploymentPropertiesExtended` of the Azure SDK (the properties
envelope of a stored record).  Pointer fields to other SDK types are kept as optional
opaque values. -/
structure DeploymentPropertiesExtended where
  ProvisioningState : Option String
  CorrelationID : Option String
  Timestamp : Option String
  Outputs : Document
  Providers : Option (List String)
  Dependencies : Option (List String)
  Template : Document
  TemplateLink : Option String
  Parameters : Document
  ParametersLink : Option String
  Mode : String
  DebugSetting : Option String
  deriving DecidableEq, Repr

/-- The zero value `DeploymentPropertiesExtended{}`. -/
def DeploymentPropertiesExtended.zero : DeploymentPropertiesExtended :=
  { ProvisioningState := none, CorrelationID := none, Timestamp := none,
    Outputs := Document.nil, Providers := none, Dependencies := none,
    Template := Document.nil, TemplateLink := none,
    Parameters := Document.nil, ParametersLink := none,
    Mode := "", DebugSetting := none }

/-- The type `http.Response`, reduced to the one field the code sets. -/
structure Response where
  StatusCode : Int
  deriving DecidableEq, Repr

/-- The type `resources.DeploymentExtended` of the Azure SDK: the record kept in the
store.  `Properties` is a pointer (`none` is the nil pointer). -/
structure DeploymentExtended where
  Response : Option Response
  ID : Option String
  Name : Option String
  Properties : Option Addr
  deriving DecidableEq, Repr

/-- The zero value `DeploymentExtended{}`. -/
def DeploymentExtended.zero : DeploymentExtended :=
  { Response := none, ID := none, Name := none, Properties := none }

/-- The type `resources.DeploymentProperties` of the Azure SDK (the properties envelope
of the argument of `CreateOrUpdate`). -/
structure DeploymentProperties where
  Template : Document
  TemplateLink : Option String
  Parameters : Document
  ParametersLink : Option String
  Mode : String
  DebugSetting : Option String
  deriving DecidableEq, Repr

/-- The type `resources.Deployment` of the Azure SDK; `Properties` is a pointer the code
only reads through, so the pointee is kept inline (`none` is the nil pointer). -/
structure Deployment where
  Properties : Option DeploymentProperties
  deriving DecidableEq, Repr

/-- The type `resources.DeploymentExportResult` of the Azure SDK. -/
structure DeploymentExportResult where
  Response : Option Response
  Template : Document
  deriving DecidableEq, Repr

/-- The zero value `DeploymentExportResult{}`. -/
def DeploymentExportResult.zero : DeploymentExportResult :=
  { Response := none, Template := Document.nil }

/-- A Go `map[string]resources.DeploymentExtended`: `none` is the nil map. -/
abbrev GoMap := Option (AList (fun _ : String => DeploymentExtended))

/-- The comma-ok read `v, ok := fs[k]`: `none` when `ok` is false. -/
def GoMap.index (fs : GoMap) (k : String) : Option DeploymentExtended :=
  match fs with
  | none => none
  | some store => store.lookup k

/-- The plain read `fs[k]`, which yields the zero value for a missing key. -/
def GoMap.read (fs : GoMap) (k : String) : DeploymentExtended :=
  (GoMap.index fs k).getD DeploymentExtended.zero

/-- The keys visited by `for i := range fs`. -/
def GoMap.keys (fs : GoMap) : List String :=
  match fs with
  | none => []
  | some store => store.keys

/-- The assignment `fs[k] = v`; `none` stands for the panic on a nil map. -/
def GoMap.assign (fs : GoMap) (k : String) (v : DeploymentExtended) : Option GoMap :=
  match fs with
  | none => none
  | some store => some (some (store.insert k v))

/-- The builtin `delete(fs, k)`, a no-op on a nil map. -/
def GoMap.delete (fs : GoMap) (k : String) : GoMap :=
  match fs with
  | none => none
  | some store => some (store.erase k)

/-- A Go slice `[]resources.DeploymentExtended`: `none` is the nil slice. -/
abbrev Slice := Option (List DeploymentExtended)

/-- The struct `DeploymentsClientMock` (the embedded `mock.Mock` and the mutex carry no
data of the store). -/
structure DeploymentsClientMock where
  FakeStore : GoMap

/-- The program state: the heap of properties envelopes and the mock. -/
structure World where
  heap : List DeploymentPropertiesExtended
  m : DeploymentsClientMock

/-- How a call ends: it returns a value, or it panics; both leave a state behind. -/
inductive Outcome (α : Type) where
  | returned (val : α) (w : World)
  | panicked (msg : String) (w : World)

/-- The state a call leaves behind. -/
def Outcome.world {α : Type} : Outcome α → World
  | .returned _ w => w
  | .panicked _ w => w

/-- The run-time panic of a write into a nil map. -/
def nilMapAssignment : String := "assignment to entry in nil map"

/-- The run-time panic of a nil pointer dereference. -/
def nilDereference : String := "invalid memory address or nil pointer dereference"

/-- The statement `deploy.Properties.Parameters = parameters.Properties.Parameters`.
Both pointers are dereferenced; an address outside the heap cannot arise in Go and is
treated like the nil pointer. -/
def assignParameters (w : World) (deploy : DeploymentExtended) (parameters : Deployment) :
    Outcome Unit :=
  match deploy.Properties, parameters.Properties with
  | some a, some src =>
    match w.heap[a]? with
    | some dst =>
      .returned () { w with heap := w.heap.set a { dst with Parameters := src.Parameters } }
    | none => .panicked nilDereference w
  | _, _ => .panicked nilDereference w

/-- The statement `deploy.Properties.Template = parameters.Properties.Template`. -/
def assignTemplate (w : World) (deploy : DeploymentExtended) (parameters : Deployment) :
    Outcome Unit :=
  match deploy.Properties, parameters.Properties with
  | some a, some src =>
    match w.heap[a]? with
    | some dst =>
      .returned () { w with heap := w.heap.set a { dst with Template := src.Template } }
    | none => .panicked nilDereference w
  | _, _ => .panicked nilDereference w

/-- The first half of `CreateOrUpdate`: `deploy, ok := m.FakeStore[deploymentName]`, and
when `!ok` a fresh record with a freshly allocated empty envelope is built and stored
under the name. -/
def lookupOrCreate (w : World) (deploymentName : String) : Outcome DeploymentExtended :=
  match GoMap.index w.m.FakeStore deploymentName with
  | some deploy => .returned deploy w
  | none =>
    let deploy : DeploymentExtended :=
      { DeploymentExtended.zero with Properties := some w.heap.length }
    let w1 : World := { w with heap := w.heap ++ [DeploymentPropertiesExtended.zero] }
    match GoMap.assign w.m.FakeStore deploymentName deploy with
    | none => .panicked nilMapAssignment w1
    | some fs => .returned deploy { w1 with m := { FakeStore := fs } }

namespace DeploymentsClientMock

/-- Method `Get`: gets the `DeploymentExtended` by `deploymentName`. -/
def Get (w : World) (deploymentName : String) : Outcome (DeploymentExtended × Option String) :=
  match GoMap.index w.m.FakeStore deploymentName with
  | none => .returned (DeploymentExtended.zero, some "deployment not found") w
  | some deploy => .returned (deploy, none) w

/-- Method `ExportTemplate`: exports the template of the deployment. -/
def ExportTemplate (w : World) (deploymentName : String) :
    Outcome (DeploymentExportResult × Option String) :=
  match GoMap.index w.m.FakeStore deploymentName with
  | none => .returned (DeploymentExportResult.zero, some "deployment not found") w
  | some deploy =>
    match deploy.Properties with
    | none => .panicked nilDereference w
    | some a =>
      match w.heap[a]? with
      | none => .panicked nilDereference w
      | some props => .returned ({ Response := none, Template := props.Template }, none) w

/-- Method `CreateOrUpdate`: creates or updates the deployment. -/
def CreateOrUpdate (w : World) (deploymentName : String) (parameters : Deployment) :
    Outcome (Option Response × Option String) :=
  match lookupOrCreate w deploymentName with
  | .panicked msg w1 => .panicked msg w1
  | .returned deploy w1 =>
    match assignParameters w1 deploy parameters with
    | .panicked msg w2 => .panicked msg w2
    | .returned _ w2 =>
      match assignTemplate w2 deploy parameters with
      | .panicked msg w3 => .panicked msg w3
      | .returned _ w3 => .returned (some { StatusCode := 200 }, none) w3

/-- Method `Delete`: deletes the given deployment. -/
def Delete (w : World) (deploymentName : String) : Outcome (Option Response × Option String) :=
  match GoMap.index w.m.FakeStore deploymentName with
  | none =>
    .returned (none, some ("there is no such a deployment with name " ++ deploymentName)) w
  | some _ =>
    .returned (none, none) { w with m := { FakeStore := GoMap.delete w.m.FakeStore deploymentName } }

end DeploymentsClientMock

/-- Method `List`: gets all the deployments, by `result = make(.., 0)` followed by one
`append` of `m.FakeStore[i]` per key `i` of the range loop. -/
def DeploymentsClientMock.List (w : World) : Outcome (Slice × Option String) :=
  .returned
    (some ((GoMap.keys w.m.FakeStore).foldl
      (fun result i => result ++ [GoMap.read w.m.FakeStore i]) []), none) w

end AzureFakes

namespace AzureFakes

/-- The envelope a record points to: `none` when the pointer is nil (or outside the
heap, which cannot arise in Go). -/
def World.envelope (w : World) (r : DeploymentExtended) : Option DeploymentPropertiesExtended :=
  match r.Properties with
  | none => none
  | some a => w.heap[a]?

/-- The template readable from a record, `r.Properties.Template`. -/
def World.templateOf (w : World) (r : DeploymentExtended) : Option Document :=
  (w.envelope r).map (fun e => e.Template)

/-- The parameters readable from a record, `r.Properties.Parameters`. -/
def World.parametersOf (w : World) (r : DeploymentExtended) : Option Document :=
  (w.envelope r).map (fun e => e.Parameters)

/-- Whether a name is a key of the store. -/
def World.present (w : World) (n : String) : Bool :=
  (GoMap.index w.m.FakeStore n).isSome

/-- A store whose map is initialised and whose records all have a properties envelope. -/
def World.wellFormed (w : World) : Bool :=
  match w.m.FakeStore with
  | none => false
  | some store => store.entries.all (fun e => (w.envelope e.2).isSome)

/-- The empty store with an initialised map, `FakeStore: make(map[string]...)`. -/
def emptyWorld : World := { heap := [], m := { FakeStore := some ∅ } }

/-- The zero-value mock, `&DeploymentsClientMock{}`, whose map is nil. -/
def zeroWorld : World := { heap := [], m := { FakeStore := none } }

/-- The argument `resources.Deployment` carrying parameters `p` and template `t`. -/
def deploymentOf (p t : Document) : Deployment :=
  { Properties := some { Template := t, TemplateLink := none, Parameters := p,
                         ParametersLink := none, Mode := "", DebugSetting := none } }

/-- The precondition under which `CreateOrUpdate` runs through: the map is initialised,
the argument has a properties envelope, and the record already stored under the name,
if there is one, has a properties envelope. -/
def World.accepts (w : World) (n : String) (parameters : Deployment) : Bool :=
  w.m.FakeStore.isSome && parameters.Properties.isSome &&
    (match GoMap.index w.m.FakeStore n with
     | none => true
     | some r => (w.envelope r).isSome)

/-- The scenario argument: parameters `a = 1`, template `tmpl = x`. -/
def scenarioDeployment : Deployment :=
  deploymentOf (.object [("a", "1")]) (.object [("tmpl", "x")])

/-- The store after `CreateOrUpdate("d1", ...)` of the scenario on the empty store. -/
def scenarioWorld : World :=
  (DeploymentsClientMock.CreateOrUpdate emptyWorld "d1" scenarioDeployment).world

/-- The collection of record values currently in the store, one per key. -/
def World.values (w : World) : List DeploymentExtended :=
  match w.m.FakeStore with
  | none => []
  | some store => store.entries.map (fun e => e.2)

/-- The number of names holding the record value `r`. -/
def World.holders (w : World) (r : DeploymentExtended) : Nat :=
  ((GoMap.keys w.m.FakeStore).filter
    (fun k => decide (GoMap.index w.m.FakeStore k = some r))).length

/-- A store pre-seeded with the zero-value record `DeploymentExtended{}` under `d1`:
the record has no properties envelope. -/
def seededWorld : World :=
  { heap := [], m := { FakeStore := some (AList.singleton "d1" DeploymentExtended.zero) } }

/-- The second payload used in the scenarios: parameters `p`, template `t`. -/
def otherDeployment : Deployment := deploymentOf (.text "p") (.text "t")

/-- A caller's statement `r.Properties.Template = x` on a record `r` it was handed by
`Get` or `List`. -/
def callerSetTemplate (w : World) (r : DeploymentExtended) (x : Document) : Outcome Unit :=
  match r.Properties with
  | none => .panicked nilDereference w
  | some a =>
    match w.heap[a]? with
    | none => .panicked nilDereference w
    | some dst => .returned () { w with heap := w.heap.set a { dst with Template := x } }

/-- One call of a test harness on the store. -/
inductive Op where
  | get (n : String)
  | exportTemplate (n : String)
  | createOrUpdate (n : String) (parameters : Deployment)
  | list
  | delete (n : String)
  deriving DecidableEq, Repr

/-- The state after one call; after a panic the harness goes on from the state the panic
left behind. -/
def step (w : World) : Op → World
  | .get n => (DeploymentsClientMock.Get w n).world
  | .exportTemplate n => (DeploymentsClientMock.ExportTemplate w n).world
  | .createOrUpdate n parameters => (DeploymentsClientMock.CreateOrUpdate w n parameters).world
  | .list => (DeploymentsClientMock.List w).world
  | .delete n => (DeploymentsClientMock.Delete w n).world

/-- The state after a history of calls. -/
def run (w : World) (ops : List Op) : World :=
  ops.foldl step w

/-- The history contains a `CreateOrUpdate` for `n` that no later `Delete` for `n`
follows. -/
def CreatedNotDeleted (ops : List Op) (n : String) : Prop :=
  ∃ pre parameters post,
    ops = pre ++ Op.createOrUpdate n parameters :: post ∧ ∀ op ∈ post, op ≠ Op.delete n

/-- The type `compute.Sku` of the Azure SDK; a pointer field holds its pointee (`none` is
the nil pointer). -/
structure Sku where
  Name : Option String
  Tier : Option String
  Capacity : Option Int

/-- A Go `map[string]*string` of tags: `none` is the nil map. -/
abbrev Tags := Option (AList (fun _ : String => Option String))

/-- The type `compute.VirtualMachineScaleSet` of the Azure SDK; a pointer field holds its
pointee, pointers to other SDK types are kept as optional opaque values, and the field
`Type` is spelled `TypeName`. -/
structure VirtualMachineScaleSet where
  Response : Option Response
  Sku : Option Sku
  Plan : Option String
  VirtualMachineScaleSetProperties : Option String
  Identity : Option String
  Zones : Option (List String)
  ExtendedLocation : Option String
  ID : Option String
  Name : Option String
  TypeName : Option String
  Location : Option String
  Tags : Tags

/-- The function `fakeVMSSWithTags`. -/
def fakeVMSSWithTags (vmssName : String) (tags : Tags) : VirtualMachineScaleSet :=
  let skuName : String := "Standard_D4_v2"
  let vmssCapacity : Int := 3
  { Response := none,
    Name := some vmssName,
    Sku := some { Capacity := some vmssCapacity, Name := some skuName, Tier := none },
    Tags := tags,
    Plan := none, VirtualMachineScaleSetProperties := none, Identity := none, Zones := none,
    ExtendedLocation := none, ID := none, TypeName := none, Location := none }

/-- The value a call returned, `none` when it panicked. -/
def Outcome.result {α : Type} : Outcome α → Option α
  | .returned val _ => some val
  | .panicked _ _ => none

/-- The invariant of the stores built by the five operations: the map is initialised,
every record points to an envelope inside the heap, and no two names share an envelope. -/
def World.Separated (w : World) : Prop :=
  w.m.FakeStore.isSome = true ∧
  ∀ k r, GoMap.index w.m.FakeStore k = some r →
    ∃ a, r.Properties = some a ∧ a < w.heap.length ∧
      ∀ k2 r2, GoMap.index w.m.FakeStore k2 = some r2 → r2.Properties = some a → k2 = k

/-- A store reachable from the empty store through the five operations. -/
def Reachable (w : World) : Prop :=
  ∃ ops, w = run emptyWorld ops

/-- A write through the pointer `p` at most: same map, same heap size, and every envelope
other than the one `p` points to is untouched. -/
def WritesThrough (p : Option Addr) (w w1 : World) : Prop :=
  w1.m = w.m ∧ w1.heap.length = w.heap.length ∧
    ∀ b, p ≠ some b → w1.heap[b]? = w.heap[b]?

/-- Whether the argument of a call is well formed: the argument of a `CreateOrUpdate` has
a properties envelope. -/
def Op.wellFormed : Op → Bool
  | .createOrUpdate _ parameters => parameters.Properties.isSome
  | _ => true

/-- Whether a call on a store returns normally, that is, without a panic. -/
def returnsNormally (w : World) : Op → Bool
  | .get n => (DeploymentsClientMock.Get w n).result.isSome
  | .exportTemplate n => (DeploymentsClientMock.ExportTemplate w n).result.isSome
  | .createOrUpdate n parameters =>
    (DeploymentsClientMock.CreateOrUpdate w n parameters).result.isSome
  | .list => (DeploymentsClientMock.List w).result.isSome
  | .delete n => (DeploymentsClientMock.Delete w n).result.isSome

/-- One `CreateOrUpdate` call of a batch, given by its name and by the properties envelope
of its argument. -/
def createCall (c : String × DeploymentProperties) : Op :=
  .createOrUpdate c.1 { Properties := some c.2 }

/-- What a store holds under a name, heap addresses left aside: the own fields of the
record and the envelope it points to. -/
def World.snapshot (w : World) (k : String) :
    Option (Option Response × Option String × Option String ×
      Option DeploymentPropertiesExtended) :=
  (GoMap.index w.m.FakeStore k).map (fun r => (r.Response, r.ID, r.Name, w.envelope r))

/-- A batch of two calls with distinct names, for the scenarios. -/
def scenarioBatch : List (String × DeploymentProperties) :=
  [("d1", { Template := .object [("tmpl", "x")], TemplateLink := none,
            Parameters := .object [("a", "1")], ParametersLink := none,
            Mode := "", DebugSetting := none }),
   ("d2", { Template := .text "t", TemplateLink := none,
            Parameters := .text "p", ParametersLink := none,
            Mode := "", DebugSetting := none })]

/-- Two envelopes agree on every field other than `Template` and `Parameters`. -/
def sameOtherFields (e e1 : DeploymentPropertiesExtended) : Prop :=
  e1.ProvisioningState = e.ProvisioningState ∧ e1.CorrelationID = e.CorrelationID ∧
  e1.Timestamp = e.Timestamp ∧ e1.Outputs = e.Outputs ∧ e1.Providers = e.Providers ∧
  e1.Dependencies = e.Dependencies ∧ e1.TemplateLink = e.TemplateLink ∧
  e1.ParametersLink = e.ParametersLink ∧ e1.Mode = e.Mode ∧
  e1.DebugSetting = e.DebugSetting

/-- A well-formed store pre-seeded with two names, `d1` and `d2`, whose records point to
one and the same properties envelope. -/
def sharedWorld : World :=
  { heap := [DeploymentPropertiesExtended.zero],
    m := { FakeStore := some
            ((AList.singleton "d1"
                { DeploymentExtended.zero with Properties := some 0 }).insert "d2"
                { DeploymentExtended.zero with Properties := some 0 }) } }

/-- In the history, the call `CreateOrUpdate(n, P)` is the most recent `CreateOrUpdate`
for `n`, and no `Delete` for `n` follows it. -/
def MostRecentWrite (ops : List Op) (n : String) (P : Deployment) : Prop :=
  ∃ pre post, ops = pre ++ Op.createOrUpdate n P :: post ∧
    ∀ op ∈ post, op ≠ Op.delete n ∧ ∀ Q, op ≠ Op.createOrUpdate n Q

/-! Helper lemmas on the operations. -/

theorem index_some_of_wellFormed {w : World} {n : String} {r : DeploymentExtended}
    (hw : w.wellFormed = true) (h : GoMap.index w.m.FakeStore n = some r) :
    ∃ a e, r.Properties = some a ∧ w.heap[a]? = some e := by
  unfold World.wellFormed at hw
  cases hfs : w.m.FakeStore with
  | none => simp [hfs] at hw
  | some store =>
    simp only [hfs, List.all_eq_true] at hw
    simp only [GoMap.index, hfs] at h
    have hmem : (⟨n, r⟩ : Sigma (fun _ : String => DeploymentExtended)) ∈ store.entries :=
      AList.mem_lookup_iff.mp h
    have := hw _ hmem
    simp only [World.envelope] at this
    cases hp : r.Properties with
    | none => simp [hp] at this
    | some a =>
      simp only [hp] at this
      cases he : w.heap[a]? with
      | none => simp [he] at this
      | some e => exact ⟨a, e, rfl, he⟩

theorem createOrUpdate_present {w : World} {n : String} {parameters : Deployment}
    {r : DeploymentExtended} {a : Addr} {e : DeploymentPropertiesExtended}
    {dp : DeploymentProperties}
    (hi : GoMap.index w.m.FakeStore n = some r) (hr : r.Properties = some a)
    (he : w.heap[a]? = some e) (hp : parameters.Properties = some dp) :
    DeploymentsClientMock.CreateOrUpdate w n parameters =
      .returned (some { StatusCode := 200 }, none)
        { w with heap := (w.heap.set a
            { e with Parameters := dp.Parameters, Template := dp.Template }) } := by
  have hlt : a < w.heap.length := by
    rcases List.getElem?_eq_some_iff.mp he with ⟨h, _⟩
    exact h
  simp [DeploymentsClientMock.CreateOrUpdate, lookupOrCreate, assignParameters, assignTemplate,
    hi, hr, he, hp, hlt]

theorem createOrUpdate_absent {w : World} {n : String} {parameters : Deployment}
    {store : AList (fun _ : String => DeploymentExtended)} {dp : DeploymentProperties}
    (hs : w.m.FakeStore = some store) (hi : store.lookup n = none)
    (hp : parameters.Properties = some dp) :
    DeploymentsClientMock.CreateOrUpdate w n parameters =
      .returned (some { StatusCode := 200 }, none)
        { heap := w.heap ++ [{ DeploymentPropertiesExtended.zero with
                                Parameters := dp.Parameters, Template := dp.Template }],
          m := { FakeStore := some (store.insert n
                  { DeploymentExtended.zero with Properties := some w.heap.length }) } } := by
  simp [DeploymentsClientMock.CreateOrUpdate, lookupOrCreate, assignParameters, assignTemplate,
    GoMap.index, GoMap.assign, hs, hi, hp]

theorem accepts_of_wellFormed {w : World} {n : String} {parameters : Deployment}
    {dp : DeploymentProperties}
    (hw : w.wellFormed = true) (hp : parameters.Properties = some dp) :
    w.accepts n parameters = true := by
  unfold World.accepts
  cases hi : GoMap.index w.m.FakeStore n with
  | none =>
    cases hfs : w.m.FakeStore with
    | none => simp [World.wellFormed, hfs] at hw
    | some store => simp [hp]
  | some r =>
    obtain ⟨a, e, hr, he⟩ := index_some_of_wellFormed hw hi
    cases hfs : w.m.FakeStore with
    | none => simp [World.wellFormed, hfs] at hw
    | some store => simp [hp, World.envelope, hr, he]

/-- What `CreateOrUpdate` does when its precondition holds: it returns status 200 and a
nil error, and in the state it leaves the name is bound to a record whose envelope holds
the template and the parameters of the argument. -/
theorem createOrUpdate_of_accepts {w : World} {n : String} {parameters : Deployment}
    {dp : DeploymentProperties}
    (hacc : w.accepts n parameters = true) (hp : parameters.Properties = some dp) :
    ∃ w1 r a e,
      DeploymentsClientMock.CreateOrUpdate w n parameters =
        .returned (some { StatusCode := 200 }, none) w1 ∧
      GoMap.index w1.m.FakeStore n = some r ∧ r.Properties = some a ∧
      w1.heap[a]? = some e ∧ e.Template = dp.Template ∧ e.Parameters = dp.Parameters := by
  unfold World.accepts at hacc
  cases hfs : w.m.FakeStore with
  | none => simp [hfs] at hacc
  | some store =>
    cases hi : store.lookup n with
    | none =>
      refine ⟨_, { DeploymentExtended.zero with Properties := some w.heap.length },
        w.heap.length, { DeploymentPropertiesExtended.zero with
          Parameters := dp.Parameters, Template := dp.Template },
        createOrUpdate_absent hfs hi hp, ?_, rfl, ?_, rfl, rfl⟩
      · simp [GoMap.index]
      · simp
    | some r =>
      have hi2 : GoMap.index w.m.FakeStore n = some r := by simp [GoMap.index, hfs, hi]
      simp only [hi2, World.envelope] at hacc
      cases hr : r.Properties with
      | none => simp [hr] at hacc
      | some a =>
        cases he : w.heap[a]? with
        | none => simp [hr, he] at hacc
        | some e =>
          have hlt : a < w.heap.length := (List.getElem?_eq_some_iff.mp he).1
          refine ⟨_, r, a, { e with Parameters := dp.Parameters, Template := dp.Template },
            createOrUpdate_present hi2 hr he hp, hi2, hr, ?_, rfl, rfl⟩
          simp [hlt]

theorem get_of_index {w : World} {n : String} {r : DeploymentExtended}
    (hi : GoMap.index w.m.FakeStore n = some r) :
    DeploymentsClientMock.Get w n = .returned (r, none) w := by
  simp [DeploymentsClientMock.Get, hi]

theorem exportTemplate_of_index {w : World} {n : String} {r : DeploymentExtended}
    {a : Addr} {e : DeploymentPropertiesExtended}
    (hi : GoMap.index w.m.FakeStore n = some r) (hr : r.Properties = some a)
    (he : w.heap[a]? = some e) :
    DeploymentsClientMock.ExportTemplate w n =
      .returned ({ Response := none, Template := e.Template }, none) w := by
  simp [DeploymentsClientMock.ExportTemplate, hi, hr, he]

/-- What `CreateOrUpdate` does when its precondition fails: it panics. -/
theorem createOrUpdate_of_not_accepts {w : World} {n : String} {parameters : Deployment}
    (hacc : w.accepts n parameters = false) :
    ∃ msg w1, DeploymentsClientMock.CreateOrUpdate w n parameters = .panicked msg w1 := by
  unfold World.accepts at hacc
  cases hfs : w.m.FakeStore with
  | none =>
    exact ⟨nilMapAssignment, { w with heap := w.heap ++ [DeploymentPropertiesExtended.zero] }, by
      simp [DeploymentsClientMock.CreateOrUpdate, lookupOrCreate, GoMap.index, GoMap.assign, hfs]⟩
  | some store =>
    cases hp : parameters.Properties with
    | none =>
      cases hi : store.lookup n with
      | none =>
        exact ⟨nilDereference,
          { heap := w.heap ++ [DeploymentPropertiesExtended.zero],
            m := { FakeStore := some (store.insert n
                    { DeploymentExtended.zero with Properties := some w.heap.length }) } }, by
          simp [DeploymentsClientMock.CreateOrUpdate, lookupOrCreate, GoMap.index, GoMap.assign,
            assignParameters, hfs, hi, hp]⟩
      | some r =>
        refine ⟨nilDereference, w, ?_⟩
        simp only [DeploymentsClientMock.CreateOrUpdate, lookupOrCreate, GoMap.index,
          assignParameters, hfs, hi, hp]
        cases r.Properties <;> rfl
    | some dp =>
      cases hi : store.lookup n with
      | none => simp [hfs, hp, GoMap.index, hi] at hacc
      | some r =>
        simp only [hfs, hp, GoMap.index, hi, World.envelope] at hacc
        refine ⟨nilDereference, w, ?_⟩
        cases hr : r.Properties with
        | none =>
          simp [DeploymentsClientMock.CreateOrUpdate, lookupOrCreate, GoMap.index,
            assignParameters, hfs, hi, hp, hr]
        | some a =>
          cases he : w.heap[a]? with
          | none =>
            simp [DeploymentsClientMock.CreateOrUpdate, lookupOrCreate, GoMap.index,
              assignParameters, hfs, hi, hp, hr, he]
          | some e => simp [hr, he] at hacc

/-- If `CreateOrUpdate` returns, its precondition held. -/
theorem accepts_of_createOrUpdate_returned {w w1 : World} {n : String}
    {parameters : Deployment} {val : Option Response × Option String}
    (h : DeploymentsClientMock.CreateOrUpdate w n parameters = .returned val w1) :
    w.accepts n parameters = true := by
  cases hacc : w.accepts n parameters with
  | true => rfl
  | false =>
    obtain ⟨msg, w2, hpanic⟩ := createOrUpdate_of_not_accepts hacc
    rw [hpanic] at h
    cases h

/-- Claim C1: on a store whose map is initialised and whose records all have a properties
envelope, for every name and every argument with a properties envelope carrying
parameters `p` and template `t`, `CreateOrUpdate` returns without error, after which `Get`
returns, with a nil error, a record whose template is `t` and whose parameters are `p`,
and `ExportTemplate` returns, with a nil error, the template `t`; whether the name was
present before or not. -/
theorem createOrUpdate_then_get_exportTemplate (w : World) (n : String)
    (parameters : Deployment) (dp : DeploymentProperties)
    (hw : w.wellFormed = true) (hp : parameters.Properties = some dp) :
    ∃ w1 resp, DeploymentsClientMock.CreateOrUpdate w n parameters = .returned (resp, none) w1 ∧
      (∃ r, DeploymentsClientMock.Get w1 n = .returned (r, none) w1 ∧
        w1.templateOf r = some dp.Template ∧ w1.parametersOf r = some dp.Parameters) ∧
      DeploymentsClientMock.ExportTemplate w1 n =
        .returned ({ Response := none, Template := dp.Template }, none) w1 := by
  obtain ⟨w1, r, a, e, hcu, hi, hr, he, ht, hq⟩ :=
    createOrUpdate_of_accepts (accepts_of_wellFormed hw hp) hp
  refine ⟨w1, _, hcu, ⟨r, get_of_index hi, ?_, ?_⟩, ?_⟩
  · simp [World.templateOf, World.envelope, hr, he, ht]
  · simp [World.parametersOf, World.envelope, hr, he, hq]
  · rw [exportTemplate_of_index hi hr he, ht]

/-- Witness for C1: the scenario `CreateOrUpdate("d1", ...)` with parameters `a = 1` and
template `tmpl = x`, on the empty store. -/
theorem createOrUpdate_then_get_exportTemplate_witness :
    emptyWorld.wellFormed = true ∧
    ∃ w1 resp, DeploymentsClientMock.CreateOrUpdate emptyWorld "d1"
        (deploymentOf (.object [("a", "1")]) (.object [("tmpl", "x")])) =
          .returned (resp, none) w1 ∧
      (∃ r, DeploymentsClientMock.Get w1 "d1" = .returned (r, none) w1 ∧
        w1.templateOf r = some (.object [("tmpl", "x")]) ∧
        w1.parametersOf r = some (.object [("a", "1")])) ∧
      DeploymentsClientMock.ExportTemplate w1 "d1" =
        .returned ({ Response := none, Template := .object [("tmpl", "x")] }, none) w1 :=
  ⟨by decide, createOrUpdate_then_get_exportTemplate emptyWorld "d1"
    (deploymentOf (.object [("a", "1")]) (.object [("tmpl", "x")])) _ (by decide) rfl⟩

/-- Claim C2: `Get` is a lookup in the store, for every store, the one with a nil map
included: a present name yields the stored record and a nil error, an absent name yields
the zero-value record and a non-nil error. -/
theorem get_is_lookup (w : World) (n : String) :
    (∀ r, GoMap.index w.m.FakeStore n = some r →
      DeploymentsClientMock.Get w n = .returned (r, none) w) ∧
    (w.present n = false →
      ∃ msg, DeploymentsClientMock.Get w n =
        .returned (DeploymentExtended.zero, some msg) w) ∧
    (w.m.FakeStore = none →
      ∃ msg, DeploymentsClientMock.Get w n =
        .returned (DeploymentExtended.zero, some msg) w) := by
  refine ⟨fun r hi => get_of_index hi, fun h => ?_, fun h => ?_⟩
  · cases hi : GoMap.index w.m.FakeStore n with
    | none => exact ⟨"deployment not found", by simp [DeploymentsClientMock.Get, hi]⟩
    | some r => simp [World.present, hi] at h
  · exact ⟨"deployment not found", by simp [DeploymentsClientMock.Get, GoMap.index, h]⟩

/-- Witness for C2: `d1` is present in the scenario store, `d2` is absent from it, and
the zero-value mock has a nil map. -/
theorem get_is_lookup_witness :
    DeploymentsClientMock.Get scenarioWorld "d1" =
      .returned ({ DeploymentExtended.zero with Properties := some 0 }, none) scenarioWorld ∧
    (∃ msg, DeploymentsClientMock.Get scenarioWorld "d2" =
      .returned (DeploymentExtended.zero, some msg) scenarioWorld) ∧
    (∃ msg, DeploymentsClientMock.Get zeroWorld "d1" =
      .returned (DeploymentExtended.zero, some msg) zeroWorld) :=
  ⟨(get_is_lookup scenarioWorld "d1").1 _ (by decide),
   (get_is_lookup scenarioWorld "d2").2.1 (by decide),
   (get_is_lookup zeroWorld "d1").2.2 rfl⟩

theorem present_delete {w : World} {n m : String} :
    ({ w with m := { FakeStore := GoMap.delete w.m.FakeStore n } } : World).present m =
      (decide (m ≠ n) && w.present m) := by
  unfold World.present GoMap.delete GoMap.index
  cases hfs : w.m.FakeStore with
  | none => simp
  | some store =>
    by_cases hmn : m = n
    · subst hmn
      simp [AList.lookup_erase]
    · simp [AList.lookup_erase_ne hmn, hmn]

/-- Claim C4: `Delete` of a present name returns a nil error and leaves the name absent,
so that `Get`, `ExportTemplate` and `Delete` for it then each return a non-nil error;
`Delete` of an absent name returns a non-nil error and leaves the store as it was. -/
theorem delete_spec (w : World) (n : String) :
    (w.present n = true →
      ∃ w2, DeploymentsClientMock.Delete w n = .returned (none, none) w2 ∧
        w2.present n = false ∧
        (∃ r msg, DeploymentsClientMock.Get w2 n = .returned (r, some msg) w2) ∧
        (∃ r msg, DeploymentsClientMock.ExportTemplate w2 n = .returned (r, some msg) w2) ∧
        (∃ resp msg, DeploymentsClientMock.Delete w2 n = .returned (resp, some msg) w2)) ∧
    (w.present n = false →
      ∃ resp msg, DeploymentsClientMock.Delete w n = .returned (resp, some msg) w) := by
  have absent : ∀ v : World, v.present n = false →
      (∃ r msg, DeploymentsClientMock.Get v n = .returned (r, some msg) v) ∧
      (∃ r msg, DeploymentsClientMock.ExportTemplate v n = .returned (r, some msg) v) ∧
      (∃ resp msg, DeploymentsClientMock.Delete v n = .returned (resp, some msg) v) := by
    intro v hv
    have hi : GoMap.index v.m.FakeStore n = none := by
      cases hi : GoMap.index v.m.FakeStore n with
      | none => rfl
      | some r => simp [World.present, hi] at hv
    exact ⟨⟨DeploymentExtended.zero, "deployment not found", by
        simp [DeploymentsClientMock.Get, hi]⟩,
      ⟨DeploymentExportResult.zero, "deployment not found", by
        simp [DeploymentsClientMock.ExportTemplate, hi]⟩,
      ⟨none, "there is no such a deployment with name " ++ n, by
        simp [DeploymentsClientMock.Delete, hi]⟩⟩
  refine ⟨fun h => ?_, fun h => (absent w h).2.2⟩
  cases hi : GoMap.index w.m.FakeStore n with
  | none => simp [World.present, hi] at h
  | some r =>
    have hgone : ({ w with m := { FakeStore := GoMap.delete w.m.FakeStore n } } :
        World).present n = false := by
      rw [present_delete]; simp
    exact ⟨_, by simp [DeploymentsClientMock.Delete, hi], hgone, absent _ hgone⟩

/-- Witness for C4: `d1` is present in the scenario store and `d2` is absent from it. -/
theorem delete_spec_witness :
    (∃ w2, DeploymentsClientMock.Delete scenarioWorld "d1" = .returned (none, none) w2 ∧
        w2.present "d1" = false ∧
        (∃ r msg, DeploymentsClientMock.Get w2 "d1" = .returned (r, some msg) w2) ∧
        (∃ r msg, DeploymentsClientMock.ExportTemplate w2 "d1" = .returned (r, some msg) w2) ∧
        (∃ resp msg, DeploymentsClientMock.Delete w2 "d1" = .returned (resp, some msg) w2)) ∧
    (∃ resp msg, DeploymentsClientMock.Delete scenarioWorld "d2" =
        .returned (resp, some msg) scenarioWorld) :=
  ⟨(delete_spec scenarioWorld "d1").1 (by decide),
   (delete_spec scenarioWorld "d2").2 (by decide)⟩

/-- Two `CreateOrUpdate` calls for one name in a row leave the state of the second call
alone. -/
theorem createOrUpdate_twice {w : World} {n : String} {P1 P2 : Deployment}
    {dp1 dp2 : DeploymentProperties}
    (hacc : w.accepts n P1 = true) (h1 : P1.Properties = some dp1)
    (h2 : P2.Properties = some dp2) :
    ∃ w1 w2,
      DeploymentsClientMock.CreateOrUpdate w n P1 =
        .returned (some { StatusCode := 200 }, none) w1 ∧
      DeploymentsClientMock.CreateOrUpdate w1 n P2 =
        .returned (some { StatusCode := 200 }, none) w2 ∧
      DeploymentsClientMock.CreateOrUpdate w n P2 =
        .returned (some { StatusCode := 200 }, none) w2 := by
  unfold World.accepts at hacc
  cases hfs : w.m.FakeStore with
  | none => simp [hfs] at hacc
  | some store =>
    cases hi : store.lookup n with
    | none =>
      refine ⟨_, _, createOrUpdate_absent hfs hi h1, ?_, createOrUpdate_absent hfs hi h2⟩
      have hi1 : GoMap.index (some (store.insert n
          { DeploymentExtended.zero with Properties := some w.heap.length })) n =
          some { DeploymentExtended.zero with Properties := some w.heap.length } := by
        simp [GoMap.index]
      rw [@createOrUpdate_present
        { heap := w.heap ++ [{ DeploymentPropertiesExtended.zero with
                                Parameters := dp1.Parameters, Template := dp1.Template }],
          m := { FakeStore := some (store.insert n
                  { DeploymentExtended.zero with Properties := some w.heap.length }) } }
        n P2 _ w.heap.length
        { DeploymentPropertiesExtended.zero with
            Parameters := dp1.Parameters, Template := dp1.Template } dp2
        hi1 rfl (by simp) h2]
      simp
    | some r =>
      have hi2 : GoMap.index w.m.FakeStore n = some r := by simp [GoMap.index, hfs, hi]
      simp only [hi2, World.envelope] at hacc
      cases hr : r.Properties with
      | none => simp [hr] at hacc
      | some a =>
        cases he : w.heap[a]? with
        | none => simp [hr, he] at hacc
        | some e =>
          have hlt : a < w.heap.length := (List.getElem?_eq_some_iff.mp he).1
          refine ⟨_, _, createOrUpdate_present hi2 hr he h1, ?_,
            createOrUpdate_present hi2 hr he h2⟩
          rw [@createOrUpdate_present
            { w with heap := (w.heap.set a
                { e with Parameters := dp1.Parameters, Template := dp1.Template }) }
            n P2 r a { e with Parameters := dp1.Parameters, Template := dp1.Template } dp2
            hi2 hr (by simp [hlt]) h2]
          simp

/-- Claim C5: last write wins, with no merge.  On a well-formed store, `CreateOrUpdate`
of `(p1, t1)` followed by `CreateOrUpdate` of `(p2, t2)` for the same name leaves the very
state that `CreateOrUpdate` of `(p2, t2)` alone leaves, hence the same `Get`,
`ExportTemplate` and `List` results for every name; `Get` of the name then shows exactly
`p2` and `t2`; and a second call with the same arguments changes nothing. -/
theorem createOrUpdate_last_write_wins (w : World) (n : String) (P1 P2 : Deployment)
    (dp1 dp2 : DeploymentProperties)
    (hw : w.wellFormed = true) (h1 : P1.Properties = some dp1)
    (h2 : P2.Properties = some dp2) :
    ∃ w1 w2,
      DeploymentsClientMock.CreateOrUpdate w n P1 =
        .returned (some { StatusCode := 200 }, none) w1 ∧
      DeploymentsClientMock.CreateOrUpdate w1 n P2 =
        .returned (some { StatusCode := 200 }, none) w2 ∧
      DeploymentsClientMock.CreateOrUpdate w n P2 =
        .returned (some { StatusCode := 200 }, none) w2 ∧
      (∀ k, DeploymentsClientMock.Get w2 k =
          DeploymentsClientMock.Get (DeploymentsClientMock.CreateOrUpdate w n P2).world k ∧
        DeploymentsClientMock.ExportTemplate w2 k =
          DeploymentsClientMock.ExportTemplate
            (DeploymentsClientMock.CreateOrUpdate w n P2).world k) ∧
      DeploymentsClientMock.List w2 =
        DeploymentsClientMock.List (DeploymentsClientMock.CreateOrUpdate w n P2).world ∧
      (∃ r, DeploymentsClientMock.Get w2 n = .returned (r, none) w2 ∧
        w2.templateOf r = some dp2.Template ∧ w2.parametersOf r = some dp2.Parameters) ∧
      DeploymentsClientMock.CreateOrUpdate w1 n P1 =
        .returned (some { StatusCode := 200 }, none) w1 := by
  have hacc := accepts_of_wellFormed (n := n) hw h1
  obtain ⟨w1, w2, hc1, hc12, hc2⟩ := createOrUpdate_twice hacc h1 h2
  obtain ⟨v1, v2, hd1, hd12, hd2⟩ := createOrUpdate_twice hacc h1 h1
  have hv1 : v1 = w1 := by
    have h := hd1.symm.trans hc1
    injection h
  have hv2 : v2 = w1 := by
    have h := hd2.symm.trans hc1
    injection h
  rw [hv1, hv2] at hd12
  obtain ⟨u, r, a, e, hu, hi, hr, he, ht, hq⟩ :=
    createOrUpdate_of_accepts (accepts_of_wellFormed (n := n) hw h2) h2
  have hu2 : u = w2 := by
    have h := hu.symm.trans hc2
    injection h
  rw [hu2] at hi he
  refine ⟨w1, w2, hc1, hc12, hc2, ?_, ?_, ⟨r, get_of_index hi, ?_, ?_⟩, hd12⟩
  · intro k
    simp [hc2, Outcome.world]
  · simp [hc2, Outcome.world]
  · simp [World.templateOf, World.envelope, hr, he, ht]
  · simp [World.parametersOf, World.envelope, hr, he, hq]

/-- Witness for C5: two writes under `d1` on the empty store. -/
theorem createOrUpdate_last_write_wins_witness :
    emptyWorld.wellFormed = true ∧
    ∃ w1 w2,
      DeploymentsClientMock.CreateOrUpdate emptyWorld "d1" scenarioDeployment =
        .returned (some { StatusCode := 200 }, none) w1 ∧
      DeploymentsClientMock.CreateOrUpdate w1 "d1" (deploymentOf (.text "p") (.text "t")) =
        .returned (some { StatusCode := 200 }, none) w2 ∧
      DeploymentsClientMock.CreateOrUpdate emptyWorld "d1"
          (deploymentOf (.text "p") (.text "t")) =
        .returned (some { StatusCode := 200 }, none) w2 ∧
      (∀ k, DeploymentsClientMock.Get w2 k =
          DeploymentsClientMock.Get (DeploymentsClientMock.CreateOrUpdate emptyWorld "d1"
            (deploymentOf (.text "p") (.text "t"))).world k ∧
        DeploymentsClientMock.ExportTemplate w2 k =
          DeploymentsClientMock.ExportTemplate
            (DeploymentsClientMock.CreateOrUpdate emptyWorld "d1"
              (deploymentOf (.text "p") (.text "t"))).world k) ∧
      DeploymentsClientMock.List w2 =
        DeploymentsClientMock.List (DeploymentsClientMock.CreateOrUpdate emptyWorld "d1"
          (deploymentOf (.text "p") (.text "t"))).world ∧
      (∃ r, DeploymentsClientMock.Get w2 "d1" = .returned (r, none) w2 ∧
        w2.templateOf r = some (.text "t") ∧ w2.parametersOf r = some (.text "p")) ∧
      DeploymentsClientMock.CreateOrUpdate w1 "d1" scenarioDeployment =
        .returned (some { StatusCode := 200 }, none) w1 :=
  ⟨by decide, createOrUpdate_last_write_wins emptyWorld "d1" scenarioDeployment
    (deploymentOf (.text "p") (.text "t")) _ _ (by decide) rfl rfl⟩

theorem foldl_append_singleton {α β : Type} (f : α → β) (keys : List α) (acc : List β) :
    keys.foldl (fun result i => result ++ [f i]) acc = acc ++ keys.map f := by
  induction keys generalizing acc with
  | nil => simp
  | cons k ks ih => simp [ih]

theorem read_of_mem_entries {store : AList (fun _ : String => DeploymentExtended)}
    {e : Sigma (fun _ : String => DeploymentExtended)} (he : e ∈ store.entries) :
    GoMap.index (some store) e.1 = some e.2 := by
  cases e with
  | mk k v => exact AList.mem_lookup_iff.mpr he

/-- The slice built by the loop of `List` is the list of stored values, in iteration
order. -/
theorem list_eq_values (w : World) :
    DeploymentsClientMock.List w = .returned (some w.values, none) w := by
  unfold DeploymentsClientMock.List World.values
  rw [foldl_append_singleton]
  cases hfs : w.m.FakeStore with
  | none => simp [GoMap.keys]
  | some store =>
    simp only [GoMap.keys, AList.keys, List.keys, List.nil_append, List.map_map]
    congr 3
    apply List.map_congr_left
    intro e he
    simp [GoMap.read, read_of_mem_entries he]

theorem count_values (w : World) (r : DeploymentExtended) :
    w.values.count r = w.holders r := by
  unfold World.values World.holders
  cases hfs : w.m.FakeStore with
  | none => simp [GoMap.keys]
  | some store =>
    simp only [GoMap.keys, AList.keys, List.keys]
    rw [List.count, List.countP_map, ← List.countP_eq_length_filter, List.countP_map]
    apply List.countP_congr
    intro e he
    simp [read_of_mem_entries he]

/-- Claim C6: `List` returns a nil error and a non-nil slice that is, up to order, the
collection of record values in the store: it has one element per name present and every
record value occurs in it once per name holding it.  On a store without names (nil map
included) the slice is empty and non-nil, and after one `CreateOrUpdate` of `(p, t)` on an
empty store it holds exactly one record, with parameters `p` and template `t`. -/
theorem list_spec (w : World) :
    (∃ l, DeploymentsClientMock.List w = .returned (some l, none) w ∧
      l.Perm w.values ∧
      l.length = (GoMap.keys w.m.FakeStore).length ∧
      (∀ r, l.count r = w.holders r)) ∧
    (GoMap.keys w.m.FakeStore = [] →
      DeploymentsClientMock.List w = .returned (some [], none) w) ∧
    (∀ n parameters dp, w.m.FakeStore = some ∅ → parameters.Properties = some dp →
      ∃ w1 resp r,
        DeploymentsClientMock.CreateOrUpdate w n parameters = .returned (resp, none) w1 ∧
        DeploymentsClientMock.List w1 = .returned (some [r], none) w1 ∧
        w1.templateOf r = some dp.Template ∧ w1.parametersOf r = some dp.Parameters) := by
  refine ⟨⟨w.values, list_eq_values w, List.Perm.refl _, ?_, count_values w⟩, ?_, ?_⟩
  · unfold World.values
    cases hfs : w.m.FakeStore with
    | none => simp [GoMap.keys]
    | some store => simp [GoMap.keys, AList.keys, List.keys]
  · intro hk
    rw [list_eq_values]
    unfold World.values
    cases hfs : w.m.FakeStore with
    | none => rfl
    | some store =>
      simp only [hfs, GoMap.keys, AList.keys, List.keys, List.map_eq_nil_iff] at hk
      simp [hk]
  · intro n parameters dp hfs hp
    refine ⟨_, _, { DeploymentExtended.zero with Properties := some w.heap.length },
      createOrUpdate_absent hfs (AList.lookup_empty n) hp, ?_, ?_, ?_⟩
    · rw [list_eq_values]
      simp [World.values, AList.insert_entries]
    · simp [World.templateOf, World.envelope]
    · simp [World.parametersOf, World.envelope]

/-- Witness for C6: the zero-value mock lists nothing, and the scenario on the empty
store lists one record. -/
theorem list_spec_witness :
    DeploymentsClientMock.List zeroWorld = .returned (some [], none) zeroWorld ∧
    ∃ w1 resp r,
      DeploymentsClientMock.CreateOrUpdate emptyWorld "d1" scenarioDeployment =
        .returned (resp, none) w1 ∧
      DeploymentsClientMock.List w1 = .returned (some [r], none) w1 ∧
      w1.templateOf r = some (.object [("tmpl", "x")]) ∧
      w1.parametersOf r = some (.object [("a", "1")]) :=
  ⟨(list_spec zeroWorld).2.1 rfl,
   (list_spec emptyWorld).2.2 "d1" scenarioDeployment _ rfl rfl⟩

/-- Counterexample to C7 as stated: `CreateOrUpdate` panics on the zero-value mock (nil
map), on an argument without a properties envelope, and on a store pre-seeded with a
record without a properties envelope. -/
theorem createOrUpdate_always_succeeds_counterexample :
    DeploymentsClientMock.CreateOrUpdate zeroWorld "d1" scenarioDeployment =
      .panicked "assignment to entry in nil map"
        { heap := [DeploymentPropertiesExtended.zero], m := { FakeStore := none } } ∧
    DeploymentsClientMock.CreateOrUpdate emptyWorld "d1" { Properties := none } =
      .panicked "invalid memory address or nil pointer dereference"
        { heap := [DeploymentPropertiesExtended.zero],
          m := { FakeStore := some (AList.singleton "d1"
                  { DeploymentExtended.zero with Properties := some 0 }) } } ∧
    DeploymentsClientMock.CreateOrUpdate seededWorld "d1" scenarioDeployment =
      .panicked "invalid memory address or nil pointer dereference" seededWorld :=
  ⟨rfl, rfl, rfl⟩

/-- When `CreateOrUpdate` returns and when it panics: it returns, with status 200 and a
nil error, exactly when its precondition holds, and panics exactly when it fails. -/
theorem createOrUpdate_returns_iff (w : World) (n : String) (parameters : Deployment) :
    ((∃ w1, DeploymentsClientMock.CreateOrUpdate w n parameters =
        .returned (some { StatusCode := 200 }, none) w1) ↔ w.accepts n parameters = true) ∧
    ((∃ msg w1, DeploymentsClientMock.CreateOrUpdate w n parameters = .panicked msg w1) ↔
      w.accepts n parameters = false) ∧
    (∀ val w1, DeploymentsClientMock.CreateOrUpdate w n parameters = .returned val w1 →
      val = (some { StatusCode := 200 }, none)) := by
  have hret : w.accepts n parameters = true →
      ∃ w1, DeploymentsClientMock.CreateOrUpdate w n parameters =
        .returned (some { StatusCode := 200 }, none) w1 := by
    intro hacc
    cases hp : parameters.Properties with
    | none => simp [World.accepts, hp] at hacc
    | some dp =>
      obtain ⟨w1, _, _, _, hcu, _⟩ := createOrUpdate_of_accepts hacc hp
      exact ⟨w1, hcu⟩
  refine ⟨⟨fun h => ?_, hret⟩, ⟨fun h => ?_, createOrUpdate_of_not_accepts⟩, ?_⟩
  · obtain ⟨w1, h1⟩ := h
    exact accepts_of_createOrUpdate_returned h1
  · obtain ⟨msg, w1, h1⟩ := h
    cases hacc : w.accepts n parameters with
    | false => rfl
    | true =>
      obtain ⟨w2, h2⟩ := hret hacc
      rw [h2] at h1
      cases h1
  · intro val w1 h
    obtain ⟨w2, h2⟩ := hret (accepts_of_createOrUpdate_returned h)
    have h3 := h2.symm.trans h
    injection h3 with hval _
    exact hval.symm

/-- Claim C7, amended: on every store whose map is initialised and whose record under the
name, if there is one, has a properties envelope, and for every argument that has a
properties envelope, `CreateOrUpdate` returns a success acknowledgment (status 200) and a
nil error; and on no store and for no argument does it return an error. -/
theorem createOrUpdate_succeeds (w : World) (n : String) (parameters : Deployment)
    (hacc : w.accepts n parameters = true) :
    (∃ w1, DeploymentsClientMock.CreateOrUpdate w n parameters =
        .returned (some { StatusCode := 200 }, none) w1) ∧
    (∀ (v : World) (k : String) (P : Deployment) val v1,
      DeploymentsClientMock.CreateOrUpdate v k P = .returned val v1 → val.2 = none) := by
  refine ⟨(createOrUpdate_returns_iff w n parameters).1.mpr hacc, ?_⟩
  intro v k P val v1 h
  rw [(createOrUpdate_returns_iff v k P).2.2 val v1 h]

/-- Witness for C7, amended: the empty store accepts the scenario argument. -/
theorem createOrUpdate_succeeds_witness :
    emptyWorld.accepts "d1" scenarioDeployment = true ∧
    ∃ w1, DeploymentsClientMock.CreateOrUpdate emptyWorld "d1" scenarioDeployment =
      .returned (some { StatusCode := 200 }, none) w1 :=
  ⟨by decide, (createOrUpdate_succeeds emptyWorld "d1" scenarioDeployment (by decide)).1⟩

/-- Counterexample to C8 as stated: the record handed out by `Get("d1")` on the scenario
store reads template `tmpl = x` and parameters `a = 1`; after `CreateOrUpdate("d1", p, t)`
the same record reads template `t` and parameters `p`.  And a caller writing template `z`
through the record makes `ExportTemplate("d1")` return `z`. -/
theorem get_returns_copy_counterexample :
    DeploymentsClientMock.Get scenarioWorld "d1" =
      .returned ({ DeploymentExtended.zero with Properties := some 0 }, none) scenarioWorld ∧
    scenarioWorld.templateOf { DeploymentExtended.zero with Properties := some 0 } =
      some (.object [("tmpl", "x")]) ∧
    scenarioWorld.parametersOf { DeploymentExtended.zero with Properties := some 0 } =
      some (.object [("a", "1")]) ∧
    (DeploymentsClientMock.CreateOrUpdate scenarioWorld "d1" otherDeployment).world.templateOf
      { DeploymentExtended.zero with Properties := some 0 } = some (.text "t") ∧
    (DeploymentsClientMock.CreateOrUpdate scenarioWorld "d1" otherDeployment).world.parametersOf
      { DeploymentExtended.zero with Properties := some 0 } = some (.text "p") ∧
    DeploymentsClientMock.ExportTemplate
      (callerSetTemplate scenarioWorld
        { DeploymentExtended.zero with Properties := some 0 } (.text "z")).world "d1" =
      .returned ({ Response := none, Template := .text "z" }, none)
        (callerSetTemplate scenarioWorld
          { DeploymentExtended.zero with Properties := some 0 } (.text "z")).world :=
  ⟨rfl, by decide, by decide, by decide, by decide, rfl⟩

/-- Claim C8, amended: callers receive a copy of the record value that shares its
properties envelope with the store.  For a present name whose record `r` has an envelope,
`Get` returns `r` and `List` contains `r`; after a `CreateOrUpdate` of `(p2, t2)` for the
name, `r` is still the record value `Get` returns, but the template and parameters
readable from `r` are `t2` and `p2`; and a caller assigning a template through `r`
changes the template that `ExportTemplate` returns and that is readable from the record
`Get` returns. -/
theorem get_returns_shallow_copy (w : World) (n : String) (r : DeploymentExtended)
    (a : Addr) (e : DeploymentPropertiesExtended) (parameters : Deployment)
    (dp : DeploymentProperties)
    (hi : GoMap.index w.m.FakeStore n = some r) (hr : r.Properties = some a)
    (he : w.heap[a]? = some e) (hp : parameters.Properties = some dp) :
    DeploymentsClientMock.Get w n = .returned (r, none) w ∧
    (∃ l, DeploymentsClientMock.List w = .returned (some l, none) w ∧ r ∈ l) ∧
    (∃ w2, DeploymentsClientMock.CreateOrUpdate w n parameters =
        .returned (some { StatusCode := 200 }, none) w2 ∧
      DeploymentsClientMock.Get w2 n = .returned (r, none) w2 ∧
      w2.templateOf r = some dp.Template ∧ w2.parametersOf r = some dp.Parameters) ∧
    (∀ x, ∃ w3, callerSetTemplate w r x = .returned () w3 ∧
      DeploymentsClientMock.Get w3 n = .returned (r, none) w3 ∧
      w3.templateOf r = some x ∧
      DeploymentsClientMock.ExportTemplate w3 n =
        .returned ({ Response := none, Template := x }, none) w3) := by
  have hlt : a < w.heap.length := (List.getElem?_eq_some_iff.mp he).1
  refine ⟨get_of_index hi, ⟨w.values, list_eq_values w, ?_⟩, ?_, ?_⟩
  · unfold World.values
    cases hfs : w.m.FakeStore with
    | none => simp [GoMap.index, hfs] at hi
    | some store =>
      simp only [GoMap.index, hfs] at hi
      exact List.mem_map.mpr ⟨⟨n, r⟩, AList.mem_lookup_iff.mp hi, rfl⟩
  · refine ⟨_, createOrUpdate_present hi hr he hp, get_of_index hi, ?_, ?_⟩
    · simp [World.templateOf, World.envelope, hr, hlt]
    · simp [World.parametersOf, World.envelope, hr, hlt]
  · intro x
    refine ⟨{ w with heap := w.heap.set a { e with Template := x } }, ?_, get_of_index hi,
      ?_, ?_⟩
    · simp [callerSetTemplate, hr, he]
    · simp [World.templateOf, World.envelope, hr, hlt]
    · exact @exportTemplate_of_index
        { w with heap := w.heap.set a { e with Template := x } } n r a
        { e with Template := x } hi hr (by simp [hlt])

/-- Witness for C8, amended: the record of `d1` in the scenario store. -/
theorem get_returns_shallow_copy_witness :
    DeploymentsClientMock.Get scenarioWorld "d1" =
      .returned ({ DeploymentExtended.zero with Properties := some 0 }, none) scenarioWorld ∧
    ∃ w2, DeploymentsClientMock.CreateOrUpdate scenarioWorld "d1" otherDeployment =
        .returned (some { StatusCode := 200 }, none) w2 ∧
      DeploymentsClientMock.Get w2 "d1" =
        .returned ({ DeploymentExtended.zero with Properties := some 0 }, none) w2 ∧
      w2.templateOf { DeploymentExtended.zero with Properties := some 0 } =
        some (.text "t") ∧
      w2.parametersOf { DeploymentExtended.zero with Properties := some 0 } =
        some (.text "p") :=
  have h := get_returns_shallow_copy scenarioWorld "d1"
    { DeploymentExtended.zero with Properties := some 0 } 0
    { DeploymentPropertiesExtended.zero with
        Parameters := .object [("a", "1")], Template := .object [("tmpl", "x")] }
    otherDeployment _ (by decide) rfl (by decide) rfl
  ⟨h.1, h.2.2.1⟩

theorem assignParameters_m (w : World) (d : DeploymentExtended) (P : Deployment) :
    (assignParameters w d P).world.m = w.m := by
  unfold assignParameters
  split
  · split <;> rfl
  · rfl

theorem assignTemplate_m (w : World) (d : DeploymentExtended) (P : Deployment) :
    (assignTemplate w d P).world.m = w.m := by
  unfold assignTemplate
  split
  · split <;> rfl
  · rfl

/-- The map `CreateOrUpdate` leaves is the one its first half leaves. -/
theorem createOrUpdate_m (w : World) (n : String) (P : Deployment) :
    (DeploymentsClientMock.CreateOrUpdate w n P).world.m = (lookupOrCreate w n).world.m := by
  cases h1 : lookupOrCreate w n with
  | panicked msg w1 =>
    unfold DeploymentsClientMock.CreateOrUpdate
    rw [h1]
    rfl
  | returned d w1 =>
    have h2 := assignParameters_m w1 d P
    cases h3 : assignParameters w1 d P with
    | panicked msg w2 =>
      simp only [h3, Outcome.world] at h2
      simp [DeploymentsClientMock.CreateOrUpdate, h1, h3, Outcome.world, h2]
    | returned u w2 =>
      simp only [h3, Outcome.world] at h2
      have h4 := assignTemplate_m w2 d P
      cases h5 : assignTemplate w2 d P with
      | panicked msg w3 =>
        simp only [h5, Outcome.world] at h4
        simp [DeploymentsClientMock.CreateOrUpdate, h1, h3, h5, Outcome.world, h4, h2]
      | returned u3 w3 =>
        simp only [h5, Outcome.world] at h4
        simp [DeploymentsClientMock.CreateOrUpdate, h1, h3, h5, Outcome.world, h4, h2]

theorem get_world (w : World) (n : String) : (DeploymentsClientMock.Get w n).world = w := by
  unfold DeploymentsClientMock.Get
  split <;> rfl

theorem exportTemplate_world (w : World) (n : String) :
    (DeploymentsClientMock.ExportTemplate w n).world = w := by
  unfold DeploymentsClientMock.ExportTemplate
  split
  · rfl
  · split
    · rfl
    · split <;> rfl

theorem list_world (w : World) : (DeploymentsClientMock.List w).world = w := rfl

theorem delete_world (w : World) (n : String) :
    (DeploymentsClientMock.Delete w n).world =
      if w.present n = true then
        { w with m := { FakeStore := GoMap.delete w.m.FakeStore n } }
      else w := by
  unfold DeploymentsClientMock.Delete World.present
  cases hi : GoMap.index w.m.FakeStore n <;> simp [Outcome.world]

theorem lookupOrCreate_fakeStore (w : World) (n : String)
    (store : AList (fun _ : String => DeploymentExtended)) (hfs : w.m.FakeStore = some store) :
    ∃ store1, (lookupOrCreate w n).world.m.FakeStore = some store1 ∧
      ∀ k, (store1.lookup k).isSome = (decide (k = n) || (store.lookup k).isSome) := by
  unfold lookupOrCreate
  cases hi : store.lookup n with
  | none =>
    refine ⟨store.insert n { DeploymentExtended.zero with Properties := some w.heap.length },
      by simp [GoMap.index, GoMap.assign, hfs, hi, Outcome.world], fun k => ?_⟩
    by_cases hk : k = n
    · subst hk
      simp
    · simp [AList.lookup_insert_ne hk, hk]
  | some r =>
    refine ⟨store, by simp [GoMap.index, hfs, hi, Outcome.world], fun k => ?_⟩
    by_cases hk : k = n
    · subst hk
      simp [hi]
    · simp [hk]

/-- How one call changes which names are present, on a store with an initialised map. -/
theorem step_present (w : World) (op : Op) (h : w.m.FakeStore.isSome = true) :
    (step w op).m.FakeStore.isSome = true ∧
    ∀ k, (step w op).present k =
      match op with
      | .createOrUpdate n _ => (decide (k = n) || w.present k)
      | .delete n => (decide (k ≠ n) && w.present k)
      | _ => w.present k := by
  cases hfs : w.m.FakeStore with
  | none => simp [hfs] at h
  | some store =>
    cases op with
    | get n => simp [step, get_world, hfs]
    | exportTemplate n => simp [step, exportTemplate_world, hfs]
    | list => simp [step, list_world, hfs]
    | createOrUpdate n P =>
      obtain ⟨store1, h1, h2⟩ := lookupOrCreate_fakeStore w n store hfs
      have hm := createOrUpdate_m w n P
      refine ⟨?_, fun k => ?_⟩
      · simp [step, hm, h1]
      · simp only [step, World.present, hm, h1, GoMap.index, hfs]
        exact h2 k
    | delete n =>
      simp only [step, delete_world]
      by_cases hp : w.present n = true
      · simp only [hp, if_true]
        refine ⟨by simp [hfs, GoMap.delete], fun k => present_delete⟩
      · simp only [hp]
        refine ⟨by simp [hfs], fun k => ?_⟩
        by_cases hk : k = n
        · subst hk
          simp at hp
          simp [hp]
        · simp [hk]

theorem run_snoc (w : World) (ops : List Op) (op : Op) :
    run w (ops ++ [op]) = step (run w ops) op := by
  simp [run, List.foldl_append]

theorem run_initialised (ops : List Op) :
    (run emptyWorld ops).m.FakeStore.isSome = true := by
  induction ops using List.reverseRecOn with
  | nil => rfl
  | append_singleton ops op ih =>
    rw [run_snoc]
    exact (step_present _ op ih).1

theorem createdNotDeleted_nil (n : String) : ¬ CreatedNotDeleted [] n := by
  rintro ⟨pre, P, post, h, _⟩
  cases pre <;> cases h

theorem createdNotDeleted_snoc (ops : List Op) (op : Op) (n : String) :
    CreatedNotDeleted (ops ++ [op]) n ↔
      (∃ P, op = Op.createOrUpdate n P) ∨ (op ≠ Op.delete n ∧ CreatedNotDeleted ops n) := by
  constructor
  · rintro ⟨pre, P, post, h, hpost⟩
    rcases List.eq_nil_or_concat post with hnil | ⟨post1, x, hx⟩
    · subst hnil
      left
      have h2 : ops ++ [op] = pre ++ [Op.createOrUpdate n P] := h
      exact ⟨P, (List.append_inj_right' h2 rfl |> List.singleton_inj.mp)⟩
    · subst hx
      right
      have h2 : ops ++ [op] = (pre ++ Op.createOrUpdate n P :: post1) ++ [x] := by
        rw [h]
        simp
      have hox : op = x := List.singleton_inj.mp (List.append_inj_right' h2 rfl)
      refine ⟨?_, pre, P, post1, List.append_inj_left' h2 rfl, fun o ho => ?_⟩
      · rw [hox]
        exact hpost x (by simp)
      · exact hpost o (by simp [ho])
  · rintro (⟨P, hP⟩ | ⟨hne, pre, P, post, h, hpost⟩)
    · exact ⟨ops, P, [], by simp [hP], by simp⟩
    · refine ⟨pre, P, post ++ [op], by simp [h], fun o ho => ?_⟩
      rcases List.mem_append.mp ho with ho | ho
      · exact hpost o ho
      · rw [List.mem_singleton.mp ho]
        exact hne

/-- The presence of a name after a history, from the empty store. -/
theorem present_run_iff (ops : List Op) (n : String) :
    (run emptyWorld ops).present n = true ↔ CreatedNotDeleted ops n := by
  induction ops using List.reverseRecOn with
  | nil =>
    constructor
    · intro h
      cases h
    · intro h
      exact (createdNotDeleted_nil n h).elim
  | append_singleton ops op ih =>
    rw [run_snoc, createdNotDeleted_snoc, (step_present _ op (run_initialised ops)).2 n]
    cases op with
    | get k => simp [ih]
    | exportTemplate k => simp [ih]
    | list => simp [ih]
    | createOrUpdate k P =>
      simp only [Bool.or_eq_true, decide_eq_true_eq, ih]
      constructor
      · rintro (h | h)
        · exact Or.inl ⟨P, by rw [h]⟩
        · by_cases hk : n = k
          · exact Or.inl ⟨P, by rw [hk]⟩
          · exact Or.inr ⟨by simp, h⟩
      · rintro (⟨P1, h⟩ | ⟨_, h⟩)
        · injection h with h1 _
          exact Or.inl h1.symm
        · exact Or.inr h
    | delete k =>
      simp only [Bool.and_eq_true, decide_eq_true_eq, ih]
      constructor
      · rintro ⟨h1, h2⟩
        exact Or.inr ⟨fun h => h1 (by injection h with h3; exact h3.symm), h2⟩
      · rintro (⟨P1, h⟩ | ⟨h1, h2⟩)
        · cases h
        · exact ⟨fun h => h1 (by rw [h]), h2⟩

/-- Claim C9: for every history of the five operations applied to the empty store and
every name, the name is present in the final store exactly when the history contains a
`CreateOrUpdate` for it that no later `Delete` for it follows; `Get`, `ExportTemplate` and
`List` never change which names are present; and a deleted name is absent until the next
`CreateOrUpdate` for it makes it present again. -/
theorem presence_invariant (ops : List Op) (n : String) :
    ((run emptyWorld ops).present n = true ↔ CreatedNotDeleted ops n) ∧
    (∀ (w : World) (k : String),
      (DeploymentsClientMock.Get w k).world.present n = w.present n ∧
      (DeploymentsClientMock.ExportTemplate w k).world.present n = w.present n ∧
      (DeploymentsClientMock.List w).world.present n = w.present n) ∧
    (∀ (mid : List Op) (parameters : Deployment),
      (run emptyWorld (ops ++ [Op.delete n])).present n = false ∧
      (run emptyWorld
        (ops ++ (Op.delete n :: mid) ++ [Op.createOrUpdate n parameters])).present n = true) := by
  refine ⟨present_run_iff ops n, fun w k => ?_, fun mid parameters => ⟨?_, ?_⟩⟩
  · rw [get_world, exportTemplate_world, list_world]
    exact ⟨rfl, rfl, rfl⟩
  · rw [run_snoc, (step_present _ _ (run_initialised ops)).2 n]
    simp
  · rw [run_snoc, (step_present _ _ (run_initialised _)).2 n]
    simp

/-- Claim C10: `Get`, `ExportTemplate` and `List` leave the state (the map, every stored
record and every properties envelope) exactly as it was, whether they return a result,
return an error or panic. -/
theorem reads_have_no_side_effects (w : World) (n : String) :
    (DeploymentsClientMock.Get w n).world = w ∧
    (DeploymentsClientMock.ExportTemplate w n).world = w ∧
    (DeploymentsClientMock.List w).world = w :=
  ⟨get_world w n, exportTemplate_world w n, list_world w⟩

/-- Claim C13: `fakeVMSSWithTags` is a total function of its two arguments: for every name
and every tag mapping, the nil one included, the descriptor has the supplied name, the
supplied tags unchanged, SKU capacity 3 and SKU name `Standard_D4_v2`, and every other
field unset; so equal inputs give equal descriptors. -/
theorem fakeVMSSWithTags_spec (vmssName : String) (tags : Tags) :
    (fakeVMSSWithTags vmssName tags).Name = some vmssName ∧
    (fakeVMSSWithTags vmssName tags).Tags = tags ∧
    (∃ sku, (fakeVMSSWithTags vmssName tags).Sku = some sku ∧
      sku.Capacity = some 3 ∧ sku.Name = some "Standard_D4_v2" ∧ sku.Tier = none) ∧
    ((fakeVMSSWithTags vmssName tags).Response = none ∧
      (fakeVMSSWithTags vmssName tags).Plan = none ∧
      (fakeVMSSWithTags vmssName tags).VirtualMachineScaleSetProperties = none ∧
      (fakeVMSSWithTags vmssName tags).Identity = none ∧
      (fakeVMSSWithTags vmssName tags).Zones = none ∧
      (fakeVMSSWithTags vmssName tags).ExtendedLocation = none ∧
      (fakeVMSSWithTags vmssName tags).ID = none ∧
      (fakeVMSSWithTags vmssName tags).TypeName = none ∧
      (fakeVMSSWithTags vmssName tags).Location = none) ∧
    (fakeVMSSWithTags vmssName none).Tags = none ∧
    (∀ (otherName : String) (otherTags : Tags),
      fakeVMSSWithTags otherName otherTags = fakeVMSSWithTags vmssName tags ↔
        otherName = vmssName ∧ otherTags = tags) := by
  refine ⟨rfl, rfl, ⟨_, rfl, rfl, rfl, rfl⟩, ⟨rfl, rfl, rfl, rfl, rfl, rfl, rfl, rfl, rfl⟩,
    rfl, fun otherName otherTags => ⟨fun h => ?_, fun h => ?_⟩⟩
  · have h1 := congrArg VirtualMachineScaleSet.Name h
    have h2 := congrArg VirtualMachineScaleSet.Tags h
    exact ⟨Option.some.inj h1, h2⟩
  · rw [h.1, h.2]

/-- Claim C14: for an absent name, `Delete` returns the error whose message is
`there is no such a deployment with name ` followed by the name, and `Get` and
`ExportTemplate` return the error whose message is `deployment not found`, whatever the
name. -/
theorem notFound_messages (w : World) (n : String) (h : w.present n = false) :
    (DeploymentsClientMock.Delete w n).result =
      some (none, some ("there is no such a deployment with name " ++ n)) ∧
    (DeploymentsClientMock.Get w n).result =
      some (DeploymentExtended.zero, some "deployment not found") ∧
    (DeploymentsClientMock.ExportTemplate w n).result =
      some (DeploymentExportResult.zero, some "deployment not found") := by
  have hi : GoMap.index w.m.FakeStore n = none := by
    cases hi : GoMap.index w.m.FakeStore n with
    | none => rfl
    | some r => simp [World.present, hi] at h
  simp [DeploymentsClientMock.Delete, DeploymentsClientMock.Get,
    DeploymentsClientMock.ExportTemplate, hi, Outcome.result]

/-- Witness for C14: the name `d2` is absent from the scenario store. -/
theorem notFound_messages_witness :
    scenarioWorld.present "d2" = false ∧
    (DeploymentsClientMock.Delete scenarioWorld "d2").result =
      some (none, some "there is no such a deployment with name d2") ∧
    (DeploymentsClientMock.Get scenarioWorld "d2").result =
      some (DeploymentExtended.zero, some "deployment not found") ∧
    (DeploymentsClientMock.ExportTemplate scenarioWorld "d2").result =
      some (DeploymentExportResult.zero, some "deployment not found") :=
  ⟨by decide, notFound_messages scenarioWorld "d2" (by decide)⟩

/-- Claim C15: on a well-formed store and for an argument with a properties envelope,
`CreateOrUpdate` returns a non-nil response with status code 200 and a nil error; on every
store, `Delete` of a present name returns a nil response and a nil error. -/
theorem success_return_shapes (w : World) (n : String) (parameters : Deployment)
    (dp : DeploymentProperties)
    (hw : w.wellFormed = true) (hp : parameters.Properties = some dp) :
    (∃ resp, (DeploymentsClientMock.CreateOrUpdate w n parameters).result =
        some (some resp, none) ∧ resp.StatusCode = 200) ∧
    (∀ (v : World) (k : String), v.present k = true →
      (DeploymentsClientMock.Delete v k).result = some (none, none)) := by
  refine ⟨?_, fun v k hk => ?_⟩
  · obtain ⟨w1, _, _, _, hcu, _⟩ := createOrUpdate_of_accepts (accepts_of_wellFormed hw hp) hp
    exact ⟨{ StatusCode := 200 }, by rw [hcu]; rfl, rfl⟩
  · cases hi : GoMap.index v.m.FakeStore k with
    | none => simp [World.present, hi] at hk
    | some r => simp [DeploymentsClientMock.Delete, hi, Outcome.result]

/-- Witness for C15: a write and a delete under `d1` on the scenario store. -/
theorem success_return_shapes_witness :
    scenarioWorld.wellFormed = true ∧
    (∃ resp, (DeploymentsClientMock.CreateOrUpdate scenarioWorld "d1" otherDeployment).result =
        some (some resp, none) ∧ resp.StatusCode = 200) ∧
    (DeploymentsClientMock.Delete scenarioWorld "d1").result = some (none, none) :=
  have h := success_return_shapes scenarioWorld "d1" otherDeployment _ (by decide) rfl
  ⟨by decide, h.1, h.2 scenarioWorld "d1" (by decide)⟩

theorem writesThrough_refl (p : Option Addr) (w : World) : WritesThrough p w w :=
  ⟨rfl, rfl, fun _ _ => rfl⟩

theorem writesThrough_trans {p : Option Addr} {w w1 w2 : World}
    (h1 : WritesThrough p w w1) (h2 : WritesThrough p w1 w2) : WritesThrough p w w2 :=
  ⟨h2.1.trans h1.1, h2.2.1.trans h1.2.1, fun b hb => (h2.2.2 b hb).trans (h1.2.2 b hb)⟩

theorem writesThrough_set (w : World) (a : Addr) (e : DeploymentPropertiesExtended) :
    WritesThrough (some a) w { w with heap := w.heap.set a e } := by
  refine ⟨rfl, by simp, fun b hb => ?_⟩
  have hab : a ≠ b := fun h => hb (by rw [h])
  simp [List.getElem?_set_ne hab]

theorem assignParameters_writesThrough (w : World) (d : DeploymentExtended) (P : Deployment) :
    WritesThrough d.Properties w (assignParameters w d P).world := by
  unfold assignParameters
  split
  · rename_i a src ha _
    split
    · rw [ha]
      exact writesThrough_set w a _
    · exact writesThrough_refl _ _
  · exact writesThrough_refl _ _

theorem assignTemplate_writesThrough (w : World) (d : DeploymentExtended) (P : Deployment) :
    WritesThrough d.Properties w (assignTemplate w d P).world := by
  unfold assignTemplate
  split
  · rename_i a src ha _
    split
    · rw [ha]
      exact writesThrough_set w a _
    · exact writesThrough_refl _ _
  · exact writesThrough_refl _ _

/-- After its first half returned the record `d`, `CreateOrUpdate` writes through the
pointer of `d` at most. -/
theorem createOrUpdate_writesThrough {w w1 : World} {n : String} {d : DeploymentExtended}
    (P : Deployment) (h1 : lookupOrCreate w n = .returned d w1) :
    WritesThrough d.Properties w1 (DeploymentsClientMock.CreateOrUpdate w n P).world := by
  have h2 := assignParameters_writesThrough w1 d P
  cases h3 : assignParameters w1 d P with
  | panicked msg w2 =>
    rw [h3] at h2
    simp only [DeploymentsClientMock.CreateOrUpdate, h1, h3]
    exact h2
  | returned u w2 =>
    rw [h3] at h2
    have h4 := assignTemplate_writesThrough w2 d P
    cases h5 : assignTemplate w2 d P with
    | panicked msg w3 =>
      rw [h5] at h4
      simp only [DeploymentsClientMock.CreateOrUpdate, h1, h3, h5]
      exact writesThrough_trans h2 h4
    | returned u3 w3 =>
      rw [h5] at h4
      simp only [DeploymentsClientMock.CreateOrUpdate, h1, h3, h5]
      exact writesThrough_trans h2 h4

theorem lookupOrCreate_present {w : World} {n : String} {r : DeploymentExtended}
    (hi : GoMap.index w.m.FakeStore n = some r) :
    lookupOrCreate w n = .returned r w := by
  simp [lookupOrCreate, hi]

theorem lookupOrCreate_absent {w : World} {n : String}
    {store : AList (fun _ : String => DeploymentExtended)}
    (hs : w.m.FakeStore = some store) (hi : GoMap.index w.m.FakeStore n = none) :
    lookupOrCreate w n =
      .returned { DeploymentExtended.zero with Properties := some w.heap.length }
        { heap := w.heap ++ [DeploymentPropertiesExtended.zero],
          m := { FakeStore := some (store.insert n
                  { DeploymentExtended.zero with Properties := some w.heap.length }) } } := by
  simp only [lookupOrCreate, hi]
  simp [GoMap.assign, hs]

/-- The frame of `CreateOrUpdate` for a present name: the map is unchanged and only the
envelope of the record under the name may change. -/
theorem createOrUpdate_frame_present {w : World} {n : String} {r : DeploymentExtended}
    (P : Deployment) (hi : GoMap.index w.m.FakeStore n = some r) :
    WritesThrough r.Properties w (DeploymentsClientMock.CreateOrUpdate w n P).world :=
  createOrUpdate_writesThrough P (lookupOrCreate_present hi)

/-- The frame of `CreateOrUpdate` for an absent name: the name is bound to a fresh record
pointing to the end of the old heap, the heap grows by one envelope, and the old
envelopes are untouched. -/
theorem createOrUpdate_frame_absent {w : World} {n : String}
    {store : AList (fun _ : String => DeploymentExtended)}
    (P : Deployment) (hs : w.m.FakeStore = some store)
    (hi : GoMap.index w.m.FakeStore n = none) :
    (DeploymentsClientMock.CreateOrUpdate w n P).world.m.FakeStore =
      some (store.insert n { DeploymentExtended.zero with Properties := some w.heap.length }) ∧
    (DeploymentsClientMock.CreateOrUpdate w n P).world.heap.length = w.heap.length + 1 ∧
    ∀ b, b < w.heap.length →
      (DeploymentsClientMock.CreateOrUpdate w n P).world.heap[b]? = w.heap[b]? := by
  have h := createOrUpdate_writesThrough P (lookupOrCreate_absent hs hi)
  obtain ⟨hm, hlen, hframe⟩ := h
  refine ⟨by rw [hm], by rw [hlen]; simp, fun b hb => ?_⟩
  have hne : (some w.heap.length : Option Addr) ≠ some b := by
    intro h
    have h2 : w.heap.length = b := Option.some.inj h
    omega
  rw [hframe b hne]
  exact List.getElem?_append_left hb

theorem index_createOrUpdate_absent {w : World} {n : String}
    {store : AList (fun _ : String => DeploymentExtended)}
    (P : Deployment) (hs : w.m.FakeStore = some store)
    (hi : GoMap.index w.m.FakeStore n = none) (k : String) :
    GoMap.index (DeploymentsClientMock.CreateOrUpdate w n P).world.m.FakeStore k =
      if k = n then some { DeploymentExtended.zero with Properties := some w.heap.length }
      else GoMap.index w.m.FakeStore k := by
  rw [(createOrUpdate_frame_absent P hs hi).1]
  by_cases hk : k = n
  · subst hk
    simp [GoMap.index]
  · simp [GoMap.index, hk, AList.lookup_insert_ne hk, hs]

theorem index_delete (w : World) (n k : String) :
    GoMap.index (DeploymentsClientMock.Delete w n).world.m.FakeStore k =
      if k = n then none else GoMap.index w.m.FakeStore k := by
  rw [delete_world]
  by_cases hp : w.present n = true
  · simp only [hp, if_true]
    cases hfs : w.m.FakeStore with
    | none => simp [GoMap.delete, GoMap.index]
    | some store =>
      by_cases hk : k = n
      · subst hk
        simp [GoMap.delete, GoMap.index, AList.lookup_erase]
      · simp [GoMap.delete, GoMap.index, AList.lookup_erase_ne hk, hk]
  · simp only [hp]
    by_cases hk : k = n
    · subst hk
      cases hi : GoMap.index w.m.FakeStore k with
      | none => simp [hi]
      | some r => simp [World.present, hi] at hp
    · simp [hk]

theorem separated_emptyWorld : emptyWorld.Separated := by
  refine ⟨rfl, fun k r h => ?_⟩
  simp [emptyWorld, GoMap.index] at h

theorem separated_createOrUpdate (w : World) (n : String) (P : Deployment)
    (h : w.Separated) : (DeploymentsClientMock.CreateOrUpdate w n P).world.Separated := by
  obtain ⟨hsome, hrec⟩ := h
  cases hfs : w.m.FakeStore with
  | none => simp [hfs] at hsome
  | some store =>
    cases hi : GoMap.index w.m.FakeStore n with
    | some r =>
      obtain ⟨hm, hlen, _⟩ := createOrUpdate_frame_present P hi
      refine ⟨by rw [hm]; exact hsome, fun k r1 hk => ?_⟩
      rw [hm] at hk
      obtain ⟨a, ha, hlt, hinj⟩ := hrec k r1 hk
      refine ⟨a, ha, by rw [hlen]; exact hlt, fun k2 r2 hk2 h2 => ?_⟩
      rw [hm] at hk2
      exact hinj k2 r2 hk2 h2
    | none =>
      obtain ⟨hm, hlen, _⟩ := createOrUpdate_frame_absent P hfs hi
      have hidx := index_createOrUpdate_absent P hfs hi
      refine ⟨by rw [hm]; rfl, fun k r1 hk => ?_⟩
      rw [hidx] at hk
      by_cases hkn : k = n
      · rw [if_pos hkn] at hk
        have hr1 : { DeploymentExtended.zero with Properties := some w.heap.length } = r1 :=
          Option.some.inj hk
        refine ⟨w.heap.length, by rw [← hr1], by rw [hlen]; exact Nat.lt_succ_self _,
          fun k2 r2 hk2 h2 => ?_⟩
        rw [hidx] at hk2
        by_cases hk2n : k2 = n
        · rw [hk2n, hkn]
        · rw [if_neg hk2n] at hk2
          obtain ⟨a, ha, hlt, _⟩ := hrec k2 r2 hk2
          rw [ha] at h2
          have h3 : a = w.heap.length := Option.some.inj h2
          rw [h3] at hlt
          exact absurd hlt (Nat.lt_irrefl _)
      · rw [if_neg hkn] at hk
        obtain ⟨a, ha, hlt, hinj⟩ := hrec k r1 hk
        refine ⟨a, ha, by rw [hlen]; exact Nat.lt_succ_of_lt hlt, fun k2 r2 hk2 h2 => ?_⟩
        rw [hidx] at hk2
        by_cases hk2n : k2 = n
        · rw [if_pos hk2n] at hk2
          have hr2 : { DeploymentExtended.zero with Properties := some w.heap.length } = r2 :=
            Option.some.inj hk2
          rw [← hr2] at h2
          have h3 : w.heap.length = a := Option.some.inj h2
          rw [← h3] at hlt
          exact absurd hlt (Nat.lt_irrefl _)
        · rw [if_neg hk2n] at hk2
          exact hinj k2 r2 hk2 h2

theorem separated_delete (w : World) (n : String) (h : w.Separated) :
    (DeploymentsClientMock.Delete w n).world.Separated := by
  obtain ⟨hsome, hrec⟩ := h
  have hidx := index_delete w n
  have hheap : (DeploymentsClientMock.Delete w n).world.heap = w.heap := by
    rw [delete_world]
    split <;> rfl
  refine ⟨?_, fun k r1 hk => ?_⟩
  · rw [delete_world]
    cases hfs : w.m.FakeStore with
    | none => simp [hfs] at hsome
    | some store => split <;> simp [GoMap.delete, hfs]
  · rw [hidx] at hk
    by_cases hkn : k = n
    · rw [if_pos hkn] at hk
      cases hk
    · rw [if_neg hkn] at hk
      obtain ⟨a, ha, hlt, hinj⟩ := hrec k r1 hk
      refine ⟨a, ha, by rw [hheap]; exact hlt, fun k2 r2 hk2 h2 => ?_⟩
      rw [hidx] at hk2
      by_cases hk2n : k2 = n
      · rw [if_pos hk2n] at hk2
        cases hk2
      · rw [if_neg hk2n] at hk2
        exact hinj k2 r2 hk2 h2

/-- Every call keeps the invariant, whether it returns or panics. -/
theorem separated_step (w : World) (op : Op) (h : w.Separated) : (step w op).Separated := by
  cases op with
  | get n => simpa [step, get_world] using h
  | exportTemplate n => simpa [step, exportTemplate_world] using h
  | list => simpa [step, list_world] using h
  | createOrUpdate n P => exact separated_createOrUpdate w n P h
  | delete n => exact separated_delete w n h

theorem separated_run (w : World) (ops : List Op) (h : w.Separated) :
    (run w ops).Separated := by
  induction ops using List.reverseRecOn with
  | nil => exact h
  | append_singleton ops op ih =>
    rw [run_snoc]
    exact separated_step _ op ih

theorem separated_of_reachable {w : World} (h : Reachable w) : w.Separated := by
  obtain ⟨ops, rfl⟩ := h
  exact separated_run emptyWorld ops separated_emptyWorld

/-- In a separated store every record has its envelope. -/
theorem wellFormed_of_separated {w : World} (h : w.Separated) : w.wellFormed = true := by
  obtain ⟨hsome, hrec⟩ := h
  unfold World.wellFormed
  cases hfs : w.m.FakeStore with
  | none => simp [hfs] at hsome
  | some store =>
    simp only [List.all_eq_true]
    intro e he
    have hi : GoMap.index w.m.FakeStore e.1 = some e.2 := by
      rw [hfs]
      exact read_of_mem_entries he
    obtain ⟨a, ha, hlt, _⟩ := hrec e.1 e.2 hi
    simp [World.envelope, ha, hlt]

/-- What `Get` and `ExportTemplate` return for a name, and whether the name is present,
depends only on the record under the name and on its envelope. -/
theorem observations_eq {w w1 : World} {m : String}
    (hidx : GoMap.index w1.m.FakeStore m = GoMap.index w.m.FakeStore m)
    (henv : ∀ r, GoMap.index w.m.FakeStore m = some r → w1.envelope r = w.envelope r) :
    w1.present m = w.present m ∧
    (DeploymentsClientMock.Get w1 m).result = (DeploymentsClientMock.Get w m).result ∧
    (DeploymentsClientMock.ExportTemplate w1 m).result =
      (DeploymentsClientMock.ExportTemplate w m).result := by
  refine ⟨by simp [World.present, hidx], ?_, ?_⟩
  · unfold DeploymentsClientMock.Get
    rw [hidx]
    cases GoMap.index w.m.FakeStore m <;> rfl
  · unfold DeploymentsClientMock.ExportTemplate
    rw [hidx]
    cases hi : GoMap.index w.m.FakeStore m with
    | none => rfl
    | some r =>
      have he := henv r hi
      simp only [World.envelope] at he
      cases hr : r.Properties with
      | none => simp [hr, Outcome.result]
      | some a =>
        simp only [hr] at he
        simp only [hr, he]
        cases w.heap[a]? <;> simp [Outcome.result]

/-- Claim C18: on every store reachable from the empty store through the five operations
and for all names `n ≠ m`, neither `CreateOrUpdate` under `n` nor `Delete` of `n` changes
whether `m` is present, what `Get` of `m` returns (the record and what is readable from
it) or what `ExportTemplate` of `m` returns. -/
theorem mutations_are_local (w : World) (n m : String) (P : Deployment)
    (hreach : Reachable w) (hnm : n ≠ m) :
    ((DeploymentsClientMock.CreateOrUpdate w n P).world.present m = w.present m ∧
      (DeploymentsClientMock.Get (DeploymentsClientMock.CreateOrUpdate w n P).world m).result =
        (DeploymentsClientMock.Get w m).result ∧
      (∀ r, GoMap.index w.m.FakeStore m = some r →
        (DeploymentsClientMock.CreateOrUpdate w n P).world.envelope r = w.envelope r) ∧
      (DeploymentsClientMock.ExportTemplate
          (DeploymentsClientMock.CreateOrUpdate w n P).world m).result =
        (DeploymentsClientMock.ExportTemplate w m).result) ∧
    ((DeploymentsClientMock.Delete w n).world.present m = w.present m ∧
      (DeploymentsClientMock.Get (DeploymentsClientMock.Delete w n).world m).result =
        (DeploymentsClientMock.Get w m).result ∧
      (∀ r, GoMap.index w.m.FakeStore m = some r →
        (DeploymentsClientMock.Delete w n).world.envelope r = w.envelope r) ∧
      (DeploymentsClientMock.ExportTemplate (DeploymentsClientMock.Delete w n).world m).result =
        (DeploymentsClientMock.ExportTemplate w m).result) := by
  have hmn : m ≠ n := fun h => hnm h.symm
  obtain ⟨hsome, hrec⟩ := separated_of_reachable hreach
  constructor
  · have hboth :
        GoMap.index (DeploymentsClientMock.CreateOrUpdate w n P).world.m.FakeStore m =
          GoMap.index w.m.FakeStore m ∧
        ∀ r, GoMap.index w.m.FakeStore m = some r →
          (DeploymentsClientMock.CreateOrUpdate w n P).world.envelope r = w.envelope r := by
      cases hfs : w.m.FakeStore with
      | none => simp [hfs] at hsome
      | some store =>
        rw [← hfs]
        cases hi : GoMap.index w.m.FakeStore n with
        | some rn =>
          obtain ⟨hm, _, hframe⟩ := createOrUpdate_frame_present P hi
          refine ⟨by rw [hm], fun r hr => ?_⟩
          obtain ⟨a, ha, _, hinj⟩ := hrec m r hr
          have hne : rn.Properties ≠ some a := fun h => hnm (hinj n rn hi h)
          simp only [World.envelope, ha]
          exact hframe a hne
        | none =>
          obtain ⟨_, _, hframe⟩ := createOrUpdate_frame_absent P hfs hi
          refine ⟨by rw [index_createOrUpdate_absent P hfs hi, if_neg hmn], fun r hr => ?_⟩
          obtain ⟨a, ha, hlt, _⟩ := hrec m r hr
          simp only [World.envelope, ha]
          exact hframe a hlt
    obtain ⟨h1, h2, h3⟩ := observations_eq hboth.1 hboth.2
    exact ⟨h1, h2, hboth.2, h3⟩
  · have hidx : GoMap.index (DeploymentsClientMock.Delete w n).world.m.FakeStore m =
        GoMap.index w.m.FakeStore m := by
      rw [index_delete, if_neg hmn]
    have henv : ∀ r, GoMap.index w.m.FakeStore m = some r →
        (DeploymentsClientMock.Delete w n).world.envelope r = w.envelope r := by
      intro r _
      have hheap : (DeploymentsClientMock.Delete w n).world.heap = w.heap := by
        rw [delete_world]
        split <;> rfl
      simp only [World.envelope, hheap]
    obtain ⟨h1, h2, h3⟩ := observations_eq hidx henv
    exact ⟨h1, h2, henv, h3⟩

/-- Witness for C18: the scenario store is reachable, and writing or deleting `d2` leaves
`d1` alone. -/
theorem mutations_are_local_witness :
    Reachable scenarioWorld ∧
    (DeploymentsClientMock.ExportTemplate
        (DeploymentsClientMock.CreateOrUpdate scenarioWorld "d2" otherDeployment).world
        "d1").result =
      (DeploymentsClientMock.ExportTemplate scenarioWorld "d1").result ∧
    (DeploymentsClientMock.Get (DeploymentsClientMock.Delete scenarioWorld "d2").world
        "d1").result =
      (DeploymentsClientMock.Get scenarioWorld "d1").result :=
  have hr : Reachable scenarioWorld := ⟨[Op.createOrUpdate "d1" scenarioDeployment], rfl⟩
  have h := mutations_are_local scenarioWorld "d2" "d1" otherDeployment hr (by decide)
  ⟨hr, h.1.2.2.2, h.2.2.1⟩

/-- On a well-formed store every call with a well-formed argument returns normally. -/
theorem returnsNormally_of_wellFormed (w : World) (op : Op)
    (hw : w.wellFormed = true) (hop : op.wellFormed = true) : returnsNormally w op = true := by
  cases op with
  | get n =>
    simp only [returnsNormally, DeploymentsClientMock.Get]
    cases GoMap.index w.m.FakeStore n <;> rfl
  | exportTemplate n =>
    simp only [returnsNormally]
    cases hi : GoMap.index w.m.FakeStore n with
    | none => simp [DeploymentsClientMock.ExportTemplate, hi, Outcome.result]
    | some r =>
      obtain ⟨a, e, hr, he⟩ := index_some_of_wellFormed hw hi
      rw [exportTemplate_of_index hi hr he]
      rfl
  | createOrUpdate n P =>
    simp only [returnsNormally]
    cases hp : P.Properties with
    | none => simp [Op.wellFormed, hp] at hop
    | some dp =>
      obtain ⟨w1, _, _, _, hcu, _⟩ :=
        createOrUpdate_of_accepts (accepts_of_wellFormed (n := n) hw hp) hp
      rw [hcu]
      rfl
  | list => rfl
  | delete n =>
    simp only [returnsNormally, DeploymentsClientMock.Delete]
    cases GoMap.index w.m.FakeStore n <;> rfl

/-- Claim C16: starting from the empty store with an initialised map, after every finite
sequence of `Get`, `ExportTemplate`, `CreateOrUpdate` (with an argument that has a
properties envelope), `List` and `Delete` calls, every record in the store has a properties
envelope; every call of the sequence was made on such a store and returned normally, and
every further call with a well-formed argument returns normally. -/
theorem wellFormed_is_invariant (ops : List Op) (h : ∀ op ∈ ops, op.wellFormed = true) :
    (run emptyWorld ops).wellFormed = true ∧
    (∀ pre op post, ops = pre ++ op :: post →
      (run emptyWorld pre).wellFormed = true ∧ returnsNormally (run emptyWorld pre) op = true) ∧
    (∀ op, op.wellFormed = true → returnsNormally (run emptyWorld ops) op = true) := by
  have hwf : ∀ l : List Op, (run emptyWorld l).wellFormed = true := fun l =>
    wellFormed_of_separated (separated_run emptyWorld l separated_emptyWorld)
  refine ⟨hwf ops, fun pre op post hsplit => ⟨hwf pre, ?_⟩,
    fun op hop => returnsNormally_of_wellFormed _ op (hwf ops) hop⟩
  apply returnsNormally_of_wellFormed _ op (hwf pre)
  apply h
  rw [hsplit]
  simp

/-- Witness for C16: a history that writes, reads, deletes and writes again. -/
theorem wellFormed_is_invariant_witness :
    (run emptyWorld
      [Op.createOrUpdate "d1" scenarioDeployment, Op.exportTemplate "d1", Op.list,
       Op.delete "d1", Op.get "d1", Op.createOrUpdate "d1" otherDeployment]).wellFormed = true ∧
    returnsNormally
      (run emptyWorld [Op.createOrUpdate "d1" scenarioDeployment]) (Op.exportTemplate "d1") =
        true :=
  have h := wellFormed_is_invariant
    [Op.createOrUpdate "d1" scenarioDeployment, Op.exportTemplate "d1", Op.list,
     Op.delete "d1", Op.get "d1", Op.createOrUpdate "d1" otherDeployment] (by decide)
  ⟨h.1, (h.2.1 [Op.createOrUpdate "d1" scenarioDeployment] (Op.exportTemplate "d1")
    [Op.list, Op.delete "d1", Op.get "d1", Op.createOrUpdate "d1" otherDeployment] rfl).2⟩

/-- The store built by a batch of `CreateOrUpdate` calls with pairwise distinct names, on
the empty store: exactly the names of the batch are present, and each name is bound to a
zero-value record pointing to an envelope that holds the payload of its call and is
zero elsewhere. -/
theorem run_creates (l : List (String × DeploymentProperties))
    (hd : (l.map Prod.fst).Nodup) :
    (∀ k, (run emptyWorld (l.map createCall)).present k = true ↔ k ∈ l.map Prod.fst) ∧
    (∀ c ∈ l, ∃ a,
      GoMap.index (run emptyWorld (l.map createCall)).m.FakeStore c.1 =
        some { DeploymentExtended.zero with Properties := some a } ∧
      (run emptyWorld (l.map createCall)).heap[a]? =
        some { DeploymentPropertiesExtended.zero with
                Parameters := c.2.Parameters, Template := c.2.Template }) := by
  induction l using List.reverseRecOn with
  | nil =>
    refine ⟨fun k => ?_, fun c hc => ?_⟩
    · simp [run, World.present, emptyWorld, GoMap.index]
    · cases hc
  | append_singleton l c ih =>
    rw [List.map_append, List.nodup_append] at hd
    obtain ⟨hdl, _, hdisj⟩ := hd
    obtain ⟨ihp, ihc⟩ := ih hdl
    have hcl : c.1 ∉ l.map Prod.fst := fun hmem =>
      hdisj hmem (by simp)
    have hinit := run_initialised (l.map createCall)
    have hsnoc : run emptyWorld ((l ++ [c]).map createCall) =
        (DeploymentsClientMock.CreateOrUpdate (run emptyWorld (l.map createCall)) c.1
          { Properties := some c.2 }).world := by
      rw [List.map_append, List.map_singleton, run_snoc]
      rfl
    rw [hsnoc]
    cases hfs : (run emptyWorld (l.map createCall)).m.FakeStore with
    | none => simp [hfs] at hinit
    | some store =>
      have habs : store.lookup c.1 = none := by
        have hnp : (run emptyWorld (l.map createCall)).present c.1 ≠ true :=
          fun hp => hcl ((ihp c.1).mp hp)
        cases hlk : store.lookup c.1 with
        | none => rfl
        | some r => exact absurd (by simp [World.present, GoMap.index, hfs, hlk]) hnp
      rw [createOrUpdate_absent hfs habs rfl]
      refine ⟨fun k => ?_, fun c1 hc1 => ?_⟩
      · have hpk := ihp k
        simp only [World.present, GoMap.index, hfs] at hpk
        simp only [Outcome.world, World.present, GoMap.index, List.map_append,
          List.map_singleton, List.mem_append, List.mem_singleton]
        by_cases hk : k = c.1
        · subst hk
          simp
        · rw [AList.lookup_insert_ne hk, hpk]
          simp [hk]
      · rcases List.mem_append.mp hc1 with hc1 | hc1
        · obtain ⟨a, hi, he⟩ := ihc c1 hc1
          have hne : c1.1 ≠ c.1 := fun heq =>
            hcl (heq ▸ List.mem_map_of_mem Prod.fst hc1)
          have hlt : a < (run emptyWorld (l.map createCall)).heap.length :=
            (List.getElem?_eq_some_iff.mp he).1
          refine ⟨a, ?_, ?_⟩
          · simp only [Outcome.world, GoMap.index]
            rw [AList.lookup_insert_ne hne]
            simpa [GoMap.index, hfs] using hi
          · simp only [Outcome.world]
            rw [List.getElem?_append_left hlt]
            exact he
        · rw [List.mem_singleton.mp hc1]
          refine ⟨(run emptyWorld (l.map createCall)).heap.length, ?_, ?_⟩
          · simp [Outcome.world, GoMap.index]
          · simp [Outcome.world]

/-- The snapshot of the store built by a batch of `CreateOrUpdate` calls with pairwise
distinct names depends on the calls only. -/
theorem snapshot_run_creates (l : List (String × DeploymentProperties))
    (hd : (l.map Prod.fst).Nodup) :
    (∀ c ∈ l, (run emptyWorld (l.map createCall)).snapshot c.1 =
      some (none, none, none, some { DeploymentPropertiesExtended.zero with
              Parameters := c.2.Parameters, Template := c.2.Template })) ∧
    (∀ k, k ∉ l.map Prod.fst → (run emptyWorld (l.map createCall)).snapshot k = none) := by
  obtain ⟨hp, hc⟩ := run_creates l hd
  refine ⟨fun c hcl => ?_, fun k hk => ?_⟩
  · obtain ⟨a, hi, he⟩ := hc c hcl
    simp only [World.snapshot, hi, Option.map_some', World.envelope, he]
    rfl
  · have hnp : (run emptyWorld (l.map createCall)).present k ≠ true :=
      fun h => hk ((hp k).mp h)
    cases hi : GoMap.index (run emptyWorld (l.map createCall)).m.FakeStore k with
    | none => simp [World.snapshot, hi]
    | some r => exact absurd (by simp [World.present, hi]) hnp

theorem length_keys_run_creates (l : List (String × DeploymentProperties))
    (hd : (l.map Prod.fst).Nodup) :
    (GoMap.keys (run emptyWorld (l.map createCall)).m.FakeStore).length = l.length := by
  obtain ⟨hp, _⟩ := run_creates l hd
  have hinit := run_initialised (l.map createCall)
  cases hfs : (run emptyWorld (l.map createCall)).m.FakeStore with
  | none => simp [hfs] at hinit
  | some store =>
    have hperm : store.keys.Perm (l.map Prod.fst) := by
      refine (List.perm_ext_iff_of_nodup store.keys_nodup hd).mpr (fun k => ?_)
      rw [← hp k, ← AList.mem_keys, ← AList.lookup_isSome]
      simp [World.present, GoMap.index, hfs]
    simpa [GoMap.keys] using hperm.length_eq

/-- The stored values are the records some name is bound to. -/
theorem mem_values_iff (w : World) (r : DeploymentExtended) :
    r ∈ w.values ↔ ∃ k, GoMap.index w.m.FakeStore k = some r := by
  unfold World.values
  cases hfs : w.m.FakeStore with
  | none => simp [GoMap.index]
  | some store =>
    simp only [GoMap.index, List.mem_map]
    constructor
    · rintro ⟨e, he, rfl⟩
      exact ⟨e.1, AList.mem_lookup_iff.mpr he⟩
    · rintro ⟨k, hk⟩
      exact ⟨⟨k, r⟩, AList.mem_lookup_iff.mp hk, rfl⟩

/-- Claim C11: for every batch of `CreateOrUpdate` calls with pairwise distinct names and
arguments with a properties envelope, applied to the empty store in any order, every call
returns status 200 and a nil error; `List` then returns as many records as there are
calls, the record of every call is in the slice with the parameters and the template of
that call, and every record of the slice is the record of a call; `Get` of each name shows
the parameters together with the template of the call for that name; and two orders leave
the same store (the same record fields and envelope under every name). -/
theorem distinct_creates_any_order (calls order1 order2 : List (String × DeploymentProperties))
    (hd : (calls.map Prod.fst).Nodup) (h1 : order1.Perm calls) (h2 : order2.Perm calls) :
    (∀ pre c post, order1 = pre ++ c :: post →
      (DeploymentsClientMock.CreateOrUpdate (run emptyWorld (pre.map createCall)) c.1
        { Properties := some c.2 }).result = some (some { StatusCode := 200 }, none)) ∧
    (∃ l, (DeploymentsClientMock.List (run emptyWorld (order1.map createCall))).result =
        some (some l, none) ∧ l.length = calls.length ∧
      (∀ c ∈ calls, ∃ r ∈ l,
        (DeploymentsClientMock.Get (run emptyWorld (order1.map createCall)) c.1).result =
          some (r, none) ∧
        (run emptyWorld (order1.map createCall)).parametersOf r = some c.2.Parameters ∧
        (run emptyWorld (order1.map createCall)).templateOf r = some c.2.Template) ∧
      (∀ r ∈ l, ∃ c ∈ calls,
        (DeploymentsClientMock.Get (run emptyWorld (order1.map createCall)) c.1).result =
          some (r, none) ∧
        (run emptyWorld (order1.map createCall)).parametersOf r = some c.2.Parameters ∧
        (run emptyWorld (order1.map createCall)).templateOf r = some c.2.Template)) ∧
    (∀ c ∈ calls, ∃ r,
      (DeploymentsClientMock.Get (run emptyWorld (order1.map createCall)) c.1).result =
        some (r, none) ∧
      (run emptyWorld (order1.map createCall)).parametersOf r = some c.2.Parameters ∧
      (run emptyWorld (order1.map createCall)).templateOf r = some c.2.Template) ∧
    (∀ k, (run emptyWorld (order1.map createCall)).snapshot k =
      (run emptyWorld (order2.map createCall)).snapshot k) := by
  have hd1 : (order1.map Prod.fst).Nodup := ((h1.map Prod.fst).nodup_iff).mpr hd
  have hd2 : (order2.map Prod.fst).Nodup := ((h2.map Prod.fst).nodup_iff).mpr hd
  have hrec : ∀ c ∈ calls, ∃ r,
      GoMap.index (run emptyWorld (order1.map createCall)).m.FakeStore c.1 = some r ∧
      (DeploymentsClientMock.Get (run emptyWorld (order1.map createCall)) c.1).result =
        some (r, none) ∧
      (run emptyWorld (order1.map createCall)).parametersOf r = some c.2.Parameters ∧
      (run emptyWorld (order1.map createCall)).templateOf r = some c.2.Template := by
    intro c hc
    obtain ⟨a, hi, he⟩ := (run_creates order1 hd1).2 c (h1.mem_iff.mpr hc)
    refine ⟨_, hi, by rw [get_of_index hi]; rfl, ?_, ?_⟩
    · simp [World.parametersOf, World.envelope, he]
    · simp [World.templateOf, World.envelope, he]
  refine ⟨fun pre c post _ => ?_, ?_, fun c hc => ?_, fun k => ?_⟩
  · have hwf : (run emptyWorld (pre.map createCall)).wellFormed = true :=
      wellFormed_of_separated (separated_run emptyWorld _ separated_emptyWorld)
    obtain ⟨w1, _, _, _, hcu, _⟩ :=
      createOrUpdate_of_accepts (n := c.1) (accepts_of_wellFormed hwf rfl) rfl
    rw [hcu]
    rfl
  · refine ⟨_, by rw [list_eq_values]; rfl, ?_, fun c hc => ?_, fun r hr => ?_⟩
    · rw [← h1.length_eq, ← length_keys_run_creates order1 hd1]
      unfold World.values GoMap.keys
      cases (run emptyWorld (order1.map createCall)).m.FakeStore with
      | none => rfl
      | some store => simp [AList.keys, List.keys]
    · obtain ⟨r, hi, hget, hpar, htem⟩ := hrec c hc
      exact ⟨r, (mem_values_iff _ r).mpr ⟨c.1, hi⟩, hget, hpar, htem⟩
    · obtain ⟨k, hk⟩ := (mem_values_iff _ r).mp hr
      have hpres : (run emptyWorld (order1.map createCall)).present k = true := by
        simp [World.present, hk]
      obtain ⟨c, hc1, hck⟩ := List.mem_map.mp (((run_creates order1 hd1).1 k).mp hpres)
      have hc : c ∈ calls := h1.mem_iff.mp hc1
      obtain ⟨r0, hi, hget, hpar, htem⟩ := hrec c hc
      rw [hck, hk] at hi
      rw [← Option.some.inj hi] at hget hpar htem
      exact ⟨c, hc, hget, hpar, htem⟩
  · obtain ⟨r, _, hget, hpar, htem⟩ := hrec c hc
    exact ⟨r, hget, hpar, htem⟩
  · by_cases hk : k ∈ calls.map Prod.fst
    · obtain ⟨c, hc, rfl⟩ := List.mem_map.mp hk
      rw [(snapshot_run_creates order1 hd1).1 c (h1.mem_iff.mpr hc),
        (snapshot_run_creates order2 hd2).1 c (h2.mem_iff.mpr hc)]
    · rw [(snapshot_run_creates order1 hd1).2 k (fun h => hk ((h1.map Prod.fst).mem_iff.mp h)),
        (snapshot_run_creates order2 hd2).2 k (fun h => hk ((h2.map Prod.fst).mem_iff.mp h))]

/-- Witness for C11: the batch of two calls, applied in reverse order and in order. -/
theorem distinct_creates_any_order_witness :
    (scenarioBatch.map Prod.fst).Nodup ∧
    (∃ l, (DeploymentsClientMock.List
        (run emptyWorld (scenarioBatch.reverse.map createCall))).result =
          some (some l, none) ∧ l.length = scenarioBatch.length ∧
      (∀ c ∈ scenarioBatch, ∃ r ∈ l,
        (DeploymentsClientMock.Get
          (run emptyWorld (scenarioBatch.reverse.map createCall)) c.1).result =
            some (r, none) ∧
        (run emptyWorld (scenarioBatch.reverse.map createCall)).parametersOf r =
          some c.2.Parameters ∧
        (run emptyWorld (scenarioBatch.reverse.map createCall)).templateOf r =
          some c.2.Template) ∧
      (∀ r ∈ l, ∃ c ∈ scenarioBatch,
        (DeploymentsClientMock.Get
          (run emptyWorld (scenarioBatch.reverse.map createCall)) c.1).result =
            some (r, none) ∧
        (run emptyWorld (scenarioBatch.reverse.map createCall)).parametersOf r =
          some c.2.Parameters ∧
        (run emptyWorld (scenarioBatch.reverse.map createCall)).templateOf r =
          some c.2.Template)) ∧
    (run emptyWorld (scenarioBatch.reverse.map createCall)).snapshot "d1" =
      (run emptyWorld (scenarioBatch.map createCall)).snapshot "d1" :=
  have h := distinct_creates_any_order scenarioBatch scenarioBatch.reverse scenarioBatch
    (by decide) (List.reverse_perm _) (List.Perm.refl _)
  ⟨by decide, h.2.1, h.2.2.2 "d1"⟩

theorem sameOtherFields_refl (e : DeploymentPropertiesExtended) : sameOtherFields e e :=
  ⟨rfl, rfl, rfl, rfl, rfl, rfl, rfl, rfl, rfl, rfl⟩

theorem sameOtherFields_trans {e e1 e2 : DeploymentPropertiesExtended}
    (h1 : sameOtherFields e e1) (h2 : sameOtherFields e1 e2) : sameOtherFields e e2 := by
  obtain ⟨a1, a2, a3, a4, a5, a6, a7, a8, a9, a10⟩ := h1
  obtain ⟨b1, b2, b3, b4, b5, b6, b7, b8, b9, b10⟩ := h2
  exact ⟨b1.trans a1, b2.trans a2, b3.trans a3, b4.trans a4, b5.trans a5, b6.trans a6,
    b7.trans a7, b8.trans a8, b9.trans a9, b10.trans a10⟩

/-- Writing one envelope into the heap changes the envelope at an address at most into
the written one. -/
theorem getElem?_set_cases (heap : List DeploymentPropertiesExtended) (a0 a : Addr)
    (x e : DeploymentPropertiesExtended) (he : heap[a]? = some e) :
    (heap.set a0 x)[a]? = some (if a0 = a then x else e) := by
  have hlt : a < heap.length := (List.getElem?_eq_some_iff.mp he).1
  by_cases h : a0 = a
  · subst h
    simp [hlt]
  · rw [List.getElem?_set_ne h, he, if_neg h]

theorem assignParameters_otherFields (w : World) (d : DeploymentExtended) (P : Deployment)
    (a : Addr) (e : DeploymentPropertiesExtended) (he : w.heap[a]? = some e) :
    ∃ e1, (assignParameters w d P).world.heap[a]? = some e1 ∧ sameOtherFields e e1 := by
  unfold assignParameters
  split
  · rename_i a0 src _ _
    split
    · rename_i dst hdst
      refine ⟨_, getElem?_set_cases w.heap a0 a _ e he, ?_⟩
      by_cases h : a0 = a
      · rw [if_pos h]
        rw [h, he] at hdst
        rw [← Option.some.inj hdst]
        exact ⟨rfl, rfl, rfl, rfl, rfl, rfl, rfl, rfl, rfl, rfl⟩
      · rw [if_neg h]
        exact sameOtherFields_refl e
    · exact ⟨e, he, sameOtherFields_refl e⟩
  · exact ⟨e, he, sameOtherFields_refl e⟩

theorem assignTemplate_otherFields (w : World) (d : DeploymentExtended) (P : Deployment)
    (a : Addr) (e : DeploymentPropertiesExtended) (he : w.heap[a]? = some e) :
    ∃ e1, (assignTemplate w d P).world.heap[a]? = some e1 ∧ sameOtherFields e e1 := by
  unfold assignTemplate
  split
  · rename_i a0 src _ _
    split
    · rename_i dst hdst
      refine ⟨_, getElem?_set_cases w.heap a0 a _ e he, ?_⟩
      by_cases h : a0 = a
      · rw [if_pos h]
        rw [h, he] at hdst
        rw [← Option.some.inj hdst]
        exact ⟨rfl, rfl, rfl, rfl, rfl, rfl, rfl, rfl, rfl, rfl⟩
      · rw [if_neg h]
        exact sameOtherFields_refl e
    · exact ⟨e, he, sameOtherFields_refl e⟩
  · exact ⟨e, he, sameOtherFields_refl e⟩

/-- After its first half, `CreateOrUpdate` changes no field of any envelope other than
`Template` and `Parameters`, whether it returns or panics. -/
theorem createOrUpdate_otherFields {w w1 : World} {n : String} {d : DeploymentExtended}
    (P : Deployment) (h1 : lookupOrCreate w n = .returned d w1)
    (a : Addr) (e : DeploymentPropertiesExtended) (he : w1.heap[a]? = some e) :
    ∃ e1, (DeploymentsClientMock.CreateOrUpdate w n P).world.heap[a]? = some e1 ∧
      sameOtherFields e e1 := by
  obtain ⟨e2, he2, hs2⟩ := assignParameters_otherFields w1 d P a e he
  cases h3 : assignParameters w1 d P with
  | panicked msg w2 =>
    rw [h3] at he2
    simp only [DeploymentsClientMock.CreateOrUpdate, h1, h3]
    exact ⟨e2, he2, hs2⟩
  | returned u w2 =>
    rw [h3] at he2
    obtain ⟨e3, he3, hs3⟩ := assignTemplate_otherFields w2 d P a e2 he2
    cases h5 : assignTemplate w2 d P with
    | panicked msg w3 =>
      rw [h5] at he3
      simp only [DeploymentsClientMock.CreateOrUpdate, h1, h3, h5]
      exact ⟨e3, he3, sameOtherFields_trans hs2 hs3⟩
    | returned u3 w3 =>
      rw [h5] at he3
      simp only [DeploymentsClientMock.CreateOrUpdate, h1, h3, h5]
      exact ⟨e3, he3, sameOtherFields_trans hs2 hs3⟩

/-- Claim C17: `CreateOrUpdate` writes only the template and the parameters.  For an
absent name the created record is the zero-value record but for its pointer to a fresh
envelope (it has no name and no id of its own), and every field of that envelope other
than the template and the parameters has its zero value.  For a present name the stored
record is unchanged and every field of its envelope other than the template and the
parameters is unchanged.  When the call returns, the template and the parameters are
those of the argument. -/
theorem createOrUpdate_writes_only_payload (w : World) (n : String) (P : Deployment) :
    (∀ store, w.m.FakeStore = some store → GoMap.index w.m.FakeStore n = none →
      ∃ r e,
        GoMap.index (DeploymentsClientMock.CreateOrUpdate w n P).world.m.FakeStore n = some r ∧
        r = { DeploymentExtended.zero with Properties := some w.heap.length } ∧
        r.Response = none ∧ r.Name = none ∧ r.ID = none ∧
        (DeploymentsClientMock.CreateOrUpdate w n P).world.heap[w.heap.length]? = some e ∧
        sameOtherFields DeploymentPropertiesExtended.zero e) ∧
    (∀ r, GoMap.index w.m.FakeStore n = some r →
      GoMap.index (DeploymentsClientMock.CreateOrUpdate w n P).world.m.FakeStore n = some r ∧
      ∀ a e, r.Properties = some a → w.heap[a]? = some e →
        ∃ e1, (DeploymentsClientMock.CreateOrUpdate w n P).world.heap[a]? = some e1 ∧
          sameOtherFields e e1) ∧
    (∀ dp val w1, P.Properties = some dp →
      DeploymentsClientMock.CreateOrUpdate w n P = .returned val w1 →
      ∃ r a e1, GoMap.index w1.m.FakeStore n = some r ∧ r.Properties = some a ∧
        w1.heap[a]? = some e1 ∧ e1.Template = dp.Template ∧
        e1.Parameters = dp.Parameters) := by
  refine ⟨fun store hs hi => ?_, fun r hi => ⟨?_, fun a e _ he => ?_⟩,
    fun dp val w1 hp hcu => ?_⟩
  · obtain ⟨e, he, hsame⟩ := createOrUpdate_otherFields P (lookupOrCreate_absent hs hi)
      w.heap.length DeploymentPropertiesExtended.zero (by simp)
    refine ⟨{ DeploymentExtended.zero with Properties := some w.heap.length }, e, ?_, rfl,
      rfl, rfl, rfl, he, hsame⟩
    rw [index_createOrUpdate_absent P hs hi, if_pos rfl]
  · rw [(createOrUpdate_frame_present P hi).1]
    exact hi
  · exact createOrUpdate_otherFields P (lookupOrCreate_present hi) a e he
  · obtain ⟨w2, r, a, e, hcu2, hi, hr, he, ht, hq⟩ :=
      createOrUpdate_of_accepts (accepts_of_createOrUpdate_returned hcu) hp
    have hw : w2 = w1 := by
      have h := hcu2.symm.trans hcu
      injection h
    rw [hw] at hi he
    exact ⟨r, a, e, hi, hr, he, ht, hq⟩

/-- Witness for C17: `d2` is absent from the scenario store and `d1` is present in it. -/
theorem createOrUpdate_writes_only_payload_witness :
    (∃ r e,
        GoMap.index (DeploymentsClientMock.CreateOrUpdate scenarioWorld "d2"
          otherDeployment).world.m.FakeStore "d2" = some r ∧
        r = { DeploymentExtended.zero with Properties := some scenarioWorld.heap.length } ∧
        r.Response = none ∧ r.Name = none ∧ r.ID = none ∧
        (DeploymentsClientMock.CreateOrUpdate scenarioWorld "d2"
          otherDeployment).world.heap[scenarioWorld.heap.length]? = some e ∧
        sameOtherFields DeploymentPropertiesExtended.zero e) ∧
    (∃ e1, (DeploymentsClientMock.CreateOrUpdate scenarioWorld "d1"
          otherDeployment).world.heap[0]? = some e1 ∧
        sameOtherFields
          { DeploymentPropertiesExtended.zero with
              Parameters := .object [("a", "1")], Template := .object [("tmpl", "x")] } e1) :=
  ⟨(createOrUpdate_writes_only_payload scenarioWorld "d2" otherDeployment).1
      (AList.singleton "d1" { DeploymentExtended.zero with Properties := some 0 })
      rfl (by decide),
   ((createOrUpdate_writes_only_payload scenarioWorld "d1" otherDeployment).2.1
      { DeploymentExtended.zero with Properties := some 0 } (by decide)).2 0
      { DeploymentPropertiesExtended.zero with
          Parameters := .object [("a", "1")], Template := .object [("tmpl", "x")] }
      rfl (by decide)⟩

/-- On a separated store a `CreateOrUpdate` under `n` leaves the record and the envelope
of every other name alone. -/
theorem createOrUpdate_other {w : World} {n m : String} (P : Deployment)
    (hsep : w.Separated) (hnm : n ≠ m) :
    GoMap.index (DeploymentsClientMock.CreateOrUpdate w n P).world.m.FakeStore m =
      GoMap.index w.m.FakeStore m ∧
    ∀ r a, GoMap.index w.m.FakeStore m = some r → r.Properties = some a →
      (DeploymentsClientMock.CreateOrUpdate w n P).world.heap[a]? = w.heap[a]? := by
  have hmn : m ≠ n := fun h => hnm h.symm
  obtain ⟨hsome, hrec⟩ := hsep
  cases hfs : w.m.FakeStore with
  | none => simp [hfs] at hsome
  | some store =>
    rw [← hfs]
    cases hi : GoMap.index w.m.FakeStore n with
    | some rn =>
      obtain ⟨hm, _, hframe⟩ := createOrUpdate_frame_present P hi
      refine ⟨by rw [hm], fun r a hr ha => ?_⟩
      obtain ⟨a1, ha1, _, hinj⟩ := hrec m r hr
      have haa : a1 = a := Option.some.inj (ha1.symm.trans ha)
      rw [haa] at hinj
      exact hframe a (fun h => hnm (hinj n rn hi h))
    | none =>
      obtain ⟨_, _, hframe⟩ := createOrUpdate_frame_absent P hfs hi
      refine ⟨by rw [index_createOrUpdate_absent P hfs hi, if_neg hmn], fun r a hr ha => ?_⟩
      obtain ⟨a1, ha1, hlt, _⟩ := hrec m r hr
      have haa : a1 = a := Option.some.inj (ha1.symm.trans ha)
      rw [haa] at hlt
      exact hframe a hlt

/-- On a separated store, a call that is neither a `CreateOrUpdate` nor a `Delete` for
`n` keeps the record of `n` and the template in its envelope. -/
theorem step_keeps_template {w : World} {n : String} {t : Document} (op : Op)
    (hsep : w.Separated)
    (hn : ∃ r a e, GoMap.index w.m.FakeStore n = some r ∧ r.Properties = some a ∧
      w.heap[a]? = some e ∧ e.Template = t)
    (hop : op ≠ Op.delete n ∧ ∀ Q, op ≠ Op.createOrUpdate n Q) :
    ∃ r a e, GoMap.index (step w op).m.FakeStore n = some r ∧ r.Properties = some a ∧
      (step w op).heap[a]? = some e ∧ e.Template = t := by
  obtain ⟨r, a, e, hi, hr, he, ht⟩ := hn
  cases op with
  | get k =>
    simp only [step, get_world]
    exact ⟨r, a, e, hi, hr, he, ht⟩
  | exportTemplate k =>
    simp only [step, exportTemplate_world]
    exact ⟨r, a, e, hi, hr, he, ht⟩
  | list =>
    simp only [step, list_world]
    exact ⟨r, a, e, hi, hr, he, ht⟩
  | createOrUpdate k Q =>
    have hkn : k ≠ n := fun h => hop.2 Q (by rw [h])
    obtain ⟨hidx, hheap⟩ := createOrUpdate_other Q hsep hkn
    refine ⟨r, a, e, ?_, hr, ?_, ht⟩
    · simp only [step]
      rw [hidx]
      exact hi
    · simp only [step]
      rw [hheap r a hi hr]
      exact he
  | delete k =>
    have hnk : n ≠ k := fun h => hop.1 (by rw [h])
    have hheap : (DeploymentsClientMock.Delete w k).world.heap = w.heap := by
      rw [delete_world]
      split <;> rfl
    refine ⟨r, a, e, ?_, hr, ?_, ht⟩
    · simp only [step]
      rw [index_delete, if_neg hnk]
      exact hi
    · simp only [step]
      rw [hheap]
      exact he

theorem run_keeps_template {n : String} {t : Document} (ops : List Op) :
    ∀ w : World, w.Separated →
      (∃ r a e, GoMap.index w.m.FakeStore n = some r ∧ r.Properties = some a ∧
        w.heap[a]? = some e ∧ e.Template = t) →
      (∀ op ∈ ops, op ≠ Op.delete n ∧ ∀ Q, op ≠ Op.createOrUpdate n Q) →
      ∃ r a e, GoMap.index (run w ops).m.FakeStore n = some r ∧ r.Properties = some a ∧
        (run w ops).heap[a]? = some e ∧ e.Template = t := by
  induction ops with
  | nil =>
    intro w _ hn _
    exact hn
  | cons op ops ih =>
    intro w hsep hn hops
    have h1 := step_keeps_template op hsep hn (hops op (by simp))
    exact ih (step w op) (separated_step w op hsep) h1
      (fun o ho => hops o (List.mem_cons_of_mem _ ho))

/-- On a store reached from the empty store, `ExportTemplate` returns the template of the
most recent `CreateOrUpdate` for the name. -/
theorem exportTemplate_most_recent (ops : List Op) (n : String) (P : Deployment)
    (dp : DeploymentProperties) (hlast : MostRecentWrite ops n P)
    (hp : P.Properties = some dp) :
    DeploymentsClientMock.ExportTemplate (run emptyWorld ops) n =
      .returned ({ Response := none, Template := dp.Template }, none) (run emptyWorld ops) := by
  obtain ⟨pre, post, hsplit, hpost⟩ := hlast
  have hsep0 : (run emptyWorld pre).Separated :=
    separated_run emptyWorld pre separated_emptyWorld
  obtain ⟨w1, r, a, e, hcu, hi, hr, he, ht, _⟩ :=
    createOrUpdate_of_accepts (n := n)
      (accepts_of_wellFormed (wellFormed_of_separated hsep0) hp) hp
  have hstep : step (run emptyWorld pre) (Op.createOrUpdate n P) = w1 := by
    simp only [step, hcu, Outcome.world]
  have hrun : run emptyWorld ops = run w1 post := by
    rw [hsplit, ← hstep]
    simp [run, List.foldl_append]
  have hsep1 : w1.Separated := by
    rw [← hstep]
    exact separated_step _ _ hsep0
  obtain ⟨r2, a2, e2, hi2, hr2, he2, ht2⟩ :=
    run_keeps_template post w1 hsep1 ⟨r, a, e, hi, hr, he, ht⟩ hpost
  rw [hrun, exportTemplate_of_index hi2 hr2 he2, ht2]

/-- Counterexample to C3 as stated: on the well-formed store in which `d1` and `d2`
share one envelope, after `CreateOrUpdate` under `d1` with template `tmpl = x`,
`ExportTemplate` of `d1` returns that template; after a further `CreateOrUpdate` under
`d2` with template `t`, `ExportTemplate` of `d1` returns `t`, which is not the template
of the most recent `CreateOrUpdate` for `d1`. -/
theorem exportTemplate_most_recent_counterexample :
    sharedWorld.wellFormed = true ∧
    (DeploymentsClientMock.CreateOrUpdate sharedWorld "d1" scenarioDeployment).result =
      some (some { StatusCode := 200 }, none) ∧
    (DeploymentsClientMock.ExportTemplate
      (DeploymentsClientMock.CreateOrUpdate sharedWorld "d1" scenarioDeployment).world
        "d1").result =
      some ({ Response := none, Template := .object [("tmpl", "x")] }, none) ∧
    (DeploymentsClientMock.CreateOrUpdate
      (DeploymentsClientMock.CreateOrUpdate sharedWorld "d1" scenarioDeployment).world
        "d2" otherDeployment).result =
      some (some { StatusCode := 200 }, none) ∧
    (DeploymentsClientMock.ExportTemplate
      (DeploymentsClientMock.CreateOrUpdate
        (DeploymentsClientMock.CreateOrUpdate sharedWorld "d1" scenarioDeployment).world
          "d2" otherDeployment).world "d1").result =
      some ({ Response := none, Template := .text "t" }, none) :=
  ⟨by decide, rfl, rfl, rfl, rfl⟩

/-- Claim C3, amended: for an absent name `ExportTemplate` returns a non-nil error and the
empty export result; for a present name whose record has a properties envelope it returns
a nil error and a result holding exactly the template currently held in that envelope and
nothing else.  Directly after a `CreateOrUpdate` for the name that returned, and on every
store reached from the empty store through the five operations, that template is the one
written by the most recent `CreateOrUpdate` for the name. -/
theorem exportTemplate_spec (w : World) (n : String) :
    (w.present n = false →
      ∃ msg, DeploymentsClientMock.ExportTemplate w n =
        .returned (DeploymentExportResult.zero, some msg) w) ∧
    (∀ r e, GoMap.index w.m.FakeStore n = some r → w.envelope r = some e →
      DeploymentsClientMock.ExportTemplate w n =
        .returned ({ Response := none, Template := e.Template }, none) w) ∧
    (∀ parameters dp val w1, parameters.Properties = some dp →
      DeploymentsClientMock.CreateOrUpdate w n parameters = .returned val w1 →
      DeploymentsClientMock.ExportTemplate w1 n =
        .returned ({ Response := none, Template := dp.Template }, none) w1) ∧
    (∀ ops P dp, w = run emptyWorld ops → MostRecentWrite ops n P →
      P.Properties = some dp →
      DeploymentsClientMock.ExportTemplate w n =
        .returned ({ Response := none, Template := dp.Template }, none) w) := by
  refine ⟨fun h => ?_, fun r e hi he => ?_, fun parameters dp val w1 hp hcu => ?_,
    fun ops P dp hw hlast hp => ?_⟩
  · cases hi : GoMap.index w.m.FakeStore n with
    | none =>
      exact ⟨"deployment not found", by simp [DeploymentsClientMock.ExportTemplate, hi]⟩
    | some r => simp [World.present, hi] at h
  · cases hr : r.Properties with
    | none => simp [World.envelope, hr] at he
    | some a =>
      simp only [World.envelope, hr] at he
      exact exportTemplate_of_index hi hr he
  · obtain ⟨w2, r, a, e, hcu2, hi, hr, he, ht, _⟩ :=
      createOrUpdate_of_accepts (accepts_of_createOrUpdate_returned hcu) hp
    rw [hcu2] at hcu
    cases hcu
    rw [exportTemplate_of_index hi hr he, ht]
  · rw [hw]
    exact exportTemplate_most_recent ops n P dp hlast hp

/-- Witness for C3, amended: `d2` is absent from the scenario store, `d1` is present in
it with the template of the scenario, writing another template under `d1` exports that
one, and after the history that writes `d1`, writes `d2` and reads `d1`, the template
of `d1` is still the one written under `d1`. -/
theorem exportTemplate_spec_witness :
    (∃ msg, DeploymentsClientMock.ExportTemplate scenarioWorld "d2" =
      .returned (DeploymentExportResult.zero, some msg) scenarioWorld) ∧
    DeploymentsClientMock.ExportTemplate scenarioWorld "d1" =
      .returned ({ Response := none, Template := .object [("tmpl", "x")] }, none)
        scenarioWorld ∧
    DeploymentsClientMock.ExportTemplate
        (DeploymentsClientMock.CreateOrUpdate scenarioWorld "d1"
          (deploymentOf .nil (.text "y"))).world "d1" =
      .returned ({ Response := none, Template := .text "y" }, none)
        (DeploymentsClientMock.CreateOrUpdate scenarioWorld "d1"
          (deploymentOf .nil (.text "y"))).world ∧
    DeploymentsClientMock.ExportTemplate
        (run emptyWorld [Op.createOrUpdate "d1" scenarioDeployment,
          Op.createOrUpdate "d2" otherDeployment, Op.get "d1"]) "d1" =
      .returned ({ Response := none, Template := .object [("tmpl", "x")] }, none)
        (run emptyWorld [Op.createOrUpdate "d1" scenarioDeployment,
          Op.createOrUpdate "d2" otherDeployment, Op.get "d1"]) :=
  ⟨(exportTemplate_spec scenarioWorld "d2").1 (by decide),
   (exportTemplate_spec scenarioWorld "d1").2.1
     { DeploymentExtended.zero with Properties := some 0 }
     { DeploymentPropertiesExtended.zero with
        Parameters := .object [("a", "1")], Template := .object [("tmpl", "x")] }
     (by decide) (by decide),
   (exportTemplate_spec scenarioWorld "d1").2.2.1 (deploymentOf .nil (.text "y")) _
     (some { StatusCode := 200 }, none) _ rfl rfl,
   (exportTemplate_spec
      (run emptyWorld [Op.createOrUpdate "d1" scenarioDeployment,
        Op.createOrUpdate "d2" otherDeployment, Op.get "d1"]) "d1").2.2.2
     [Op.createOrUpdate "d1" scenarioDeployment, Op.createOrUpdate "d2" otherDeployment,
       Op.get "d1"] scenarioDeployment _ rfl
     ⟨[], [Op.createOrUpdate "d2" otherDeployment, Op.get "d1"], rfl, by
        intro op hop
        simp only [List.mem_cons, List.mem_singleton, List.not_mem_nil, or_false] at hop
        rcases hop with rfl | rfl
        · exact ⟨by simp, fun Q h => by
            injection h with h1 _
            exact absurd h1 (by decide)⟩
        · exact ⟨by simp, fun Q h => by cases h⟩⟩
     rfl⟩

end AzureFakes
